import Mathlib

/-!
# Amit: hexagonal grid storage (`src/Amit/main.cpp`)

A shallow embedding of the two templates of the repository, `Hex<R, zero_base>`
(an axial coordinate with a validity predicate) and
`HexContainer<T, R, zero_base, SizeType>` (a dense `(2R+1) x (2R+1)` array
addressed by axial coordinates), together with the index-type selection
`sidx` / `uidx`.

Conventions of the embedding:

* a fixed-width integer type is represented by its width in bits, a value of
  such a type by the `Int` it denotes; a conversion to a signed type of `w`
  bits is the explicit two's complement reduction `to_signed w`;
* operands narrower than `int` are promoted to `int` before any arithmetic, so
  the arithmetic of `Hex` is carried out on `Int`: with operands of at most
  16 bits no intermediate value leaves the range of a 32-bit `int`;
* `size_type` of the container is the template parameter `SizeType`; index
  arithmetic on it is carried out on `Int`;
* a reference returned by `at` is represented by the index pair it designates;
  reading and assigning through it are checked against the bounds of
  `m_data` and return `none` outside of them (undefined behaviour in C++).
-/

namespace Amit

/-! ## Index-type selection (lines 44-54) -/

/-- `rows_size<R>::value`, computed in the 64-bit `std::size_t`. -/
def rows_size (R : Nat) : Nat := (2 * R + 3) % 2 ^ 64

/-- `cols_size<R>::value`, computed in the 64-bit `std::size_t`. -/
def cols_size (R : Nat) : Nat := (4 * R + 3) % 2 ^ 64

/-- `data_size<R>::value`, computed in the 64-bit `std::size_t`. -/
def data_size (R : Nat) : Nat := (rows_size R * cols_size R) % 2 ^ 64

/-- Width in bits of `uidx<R>`: `std::uint8_t` when
`data_size<( 2 * R + 1 )>::value < 255`, otherwise `std::uint16_t`. -/
def uidx (R : Nat) : Nat :=
  if data_size ((2 * R + 1) % 2 ^ 64) < 255 then 8 else 16

/-- Width in bits of `sidx<R>`: `std::int8_t` when
`data_size<( 2 * R + 1 )>::value < 127`, otherwise `std::int16_t`. -/
def sidx (R : Nat) : Nat :=
  if data_size ((2 * R + 1) % 2 ^ 64) < 127 then 8 else 16

/-- Conversion of an integer to the signed two's complement type of `bits`
bits. -/
def to_signed (bits : Nat) (x : Int) : Int :=
  (x + 2 ^ (bits - 1)) % 2 ^ bits - 2 ^ (bits - 1)

/-- `std::abs` on `int`. -/
def std_abs (x : Int) : Int := if x < 0 then -x else x

/-! ## `Hex<R, zero_base>` (lines 56-108) -/

/-- Conversion to `Hex<R, zero_base>::value_type`, which is `sidx<R>`. -/
def Hex.to_value (R : Int) (x : Int) : Int := to_signed (sidx R.toNat) x

/-- `Hex::radius ( )`: the template argument `R` returned as `value_type`. -/
def Hex.radius (R : Int) : Int := Hex.to_value R R

/-- `Hex<R, zero_base>`: the two data members with their default member
initialisers `value_type { -Hex::radius ( ) - 1 }`. -/
structure Hex (R : Int) (zero_base : Bool) where
  q : Int := Hex.to_value R (-Hex.radius R - 1)
  r : Int := Hex.to_value R (-Hex.radius R - 1)
  deriving DecidableEq

/-- `void Hex::nil ( )`. -/
def Hex.nil {R : Int} {zero_base : Bool} (_h : Hex R zero_base) : Hex R zero_base :=
  { q := Hex.to_value R (-Hex.radius R - 1), r := Hex.to_value R (-Hex.radius R - 1) }

/-- `bool Hex::operator == ( const Hex & rhs_ )`. -/
def Hex.eq {R : Int} {zero_base : Bool} (h rhs_ : Hex R zero_base) : Bool :=
  decide (h.q = rhs_.q) && decide (h.r = rhs_.r)

/-- `bool Hex::operator != ( const Hex & rhs_ )`. -/
def Hex.ne {R : Int} {zero_base : Bool} (h rhs_ : Hex R zero_base) : Bool :=
  decide (h.q ≠ rhs_.q) || decide (h.r ≠ rhs_.r)

/-- `bool Hex::in_valid ( ) const` (the instance overload, lines 80-87). -/
def Hex.in_valid {R : Int} {zero_base : Bool} (h : Hex R zero_base) : Bool :=
  if zero_base then
    decide (std_abs h.q > Hex.radius R) || decide (std_abs h.r > Hex.radius R)
      || decide (std_abs (-h.q - h.r) > Hex.radius R)
  else
    decide (std_abs (h.q - Hex.radius R) > Hex.radius R)
      || decide (std_abs (h.r - Hex.radius R) > Hex.radius R)
      || decide (std_abs (-h.q - h.r + 2 * Hex.radius R) > Hex.radius R)

/-- `static bool Hex::in_valid ( value_type q_, value_type r_ )` (lines 88-95).
The arguments are converted to `value_type` when they are passed. -/
def Hex.in_valid_static (R : Int) (zero_base : Bool) (q r : Int) : Bool :=
  let q_ := Hex.to_value R q
  let r_ := Hex.to_value R r
  if zero_base then
    decide (std_abs q_ > Hex.radius R) || decide (std_abs r_ > Hex.radius R)
      || decide (std_abs (-q_ - r_) > Hex.radius R)
  else
    decide (std_abs (q_ - Hex.radius R) > Hex.radius R)
      || decide (std_abs (r_ - Hex.radius R) > Hex.radius R)
      || decide (std_abs (-q_ - r_ + 2 * Hex.radius R) > Hex.radius R)

/-- `bool Hex::valid ( ) const`. -/
def Hex.valid {R : Int} {zero_base : Bool} (h : Hex R zero_base) : Bool :=
  !(h.in_valid)

/-- `static bool Hex::valid ( value_type q_, value_type r_ )`. -/
def Hex.valid_static (R : Int) (zero_base : Bool) (q r : Int) : Bool :=
  !(Hex.in_valid_static R zero_base q r)

/-! ## `HexContainer<T, R, zero_base, SizeType>` (lines 111-180) -/

/-- `HexContainer<T, R, zero_base, SizeType>`: its only data member
`T m_data [ 2 * R + 1 ] [ 2 * R + 1 ]`, the row subscript first. -/
structure HexContainer (T : Type) (R : Nat) (zero_base : Bool) where
  m_data : Fin (2 * R + 1) → Fin (2 * R + 1) → T

/-- `static size_type HexContainer::radius ( )`. -/
def HexContainer.radius (R : Nat) : Int := (R : Int)

/-- `static size_type HexContainer::width ( )`. -/
def HexContainer.width (R : Nat) : Int := 2 * HexContainer.radius R + 1

/-- `static size_type HexContainer::height ( )`. -/
def HexContainer.height (R : Nat) : Int := 2 * HexContainer.radius R + 1

/-- `static size_type HexContainer::size ( )`. -/
def HexContainer.size (R : Nat) : Int := HexContainer.width R * HexContainer.height R

/-- The constructor `HexContainer ( ) : m_data { { T ( ) } }`: the first cell
is initialised from `T ( )` and every remaining cell is value-initialised,
which is `T ( )` again; `T ( )` is the `default` of the element type. -/
def HexContainer.init (T : Type) [Inhabited T] (R : Nat) (zero_base : Bool) :
    HexContainer T R zero_base :=
  { m_data := fun _ _ => default }

/-- The pair of subscripts `( row, column )` that `at ( q_, r_ )` applies to
`m_data` (lines 138-145): `m_data [ r_ ] [ q_ ]` when `zero_base`, and
`m_data [ r_ + radius ( ) ] [ q_ + std::max ( radius ( ), r_ ) ]` otherwise. -/
def HexContainer.at_index (R : Nat) (zero_base : Bool) (q_ r_ : Int) : Int × Int :=
  if zero_base then
    (r_, q_)
  else
    (r_ + HexContainer.radius R, q_ + max (HexContainer.radius R) r_)

/-- The cell of `m_data` designated by a pair of subscripts, `none` when a
subscript is outside of `[0, 2R]`. -/
def HexContainer.cell (R : Nat) (i : Int × Int) :
    Option (Fin (2 * R + 1) × Fin (2 * R + 1)) :=
  if h : (0 ≤ i.1 ∧ i.1 < 2 * (R : Int) + 1) ∧ (0 ≤ i.2 ∧ i.2 < 2 * (R : Int) + 1) then
    some (⟨i.1.toNat, by omega⟩, ⟨i.2.toNat, by omega⟩)
  else
    none

/-- Reading through the reference returned by `at ( q_, r_ )`. -/
def HexContainer.at_qr {T : Type} {R : Nat} {zero_base : Bool}
    (g : HexContainer T R zero_base) (q_ r_ : Int) : Option T :=
  (HexContainer.cell R (HexContainer.at_index R zero_base q_ r_)).map
    (fun c => g.m_data c.1 c.2)

/-- The statement `g.at ( q_, r_ ) = v`: assigning through the reference
returned by `at ( q_, r_ )`. -/
def HexContainer.at_qr_assign {T : Type} {R : Nat} {zero_base : Bool}
    (g : HexContainer T R zero_base) (q_ r_ : Int) (v : T) :
    Option (HexContainer T R zero_base) :=
  (HexContainer.cell R (HexContainer.at_index R zero_base q_ r_)).map
    (fun c => { m_data := fun row col =>
      if row = c.1 ∧ col = c.2 then v else g.m_data row col })

/-- Reading through `at ( const Hex<R> & h_ )`, which forwards to
`at ( h_.q, h_.r )`; the parameter type is `Hex<R>`, that is `Hex<R, true>`. -/
def HexContainer.at_hex {T : Type} {R : Nat} {zero_base : Bool}
    (g : HexContainer T R zero_base) (h_ : Hex (R : Int) true) : Option T :=
  g.at_qr h_.q h_.r

/-- The statement `g.at ( h_ ) = v`. -/
def HexContainer.at_hex_assign {T : Type} {R : Nat} {zero_base : Bool}
    (g : HexContainer T R zero_base) (h_ : Hex (R : Int) true) (v : T) :
    Option (HexContainer T R zero_base) :=
  g.at_qr_assign h_.q h_.r v

/-- Reading through `operator [ ] ( const Hex<R> & h_ )`, which forwards to
`at ( h_ )`. -/
def HexContainer.subscript {T : Type} {R : Nat} {zero_base : Bool}
    (g : HexContainer T R zero_base) (h_ : Hex (R : Int) true) : Option T :=
  g.at_hex h_

/-- The statement `g [ h_ ] = v`. -/
def HexContainer.subscript_assign {T : Type} {R : Nat} {zero_base : Bool}
    (g : HexContainer T R zero_base) (h_ : Hex (R : Int) true) (v : T) :
    Option (HexContainer T R zero_base) :=
  g.at_hex_assign h_ v

/-- The const overload
`const_reference at ( const size_type q_, const size_type r_ ) const`
(lines 146-148). Its body `return at ( q_, r_ );` is evaluated on a const
object, for which only the const overloads of `at` are viable, so the call
resolves to this same function. `fuel` bounds the depth of the nested calls;
the result is `none` when no call has returned within `fuel`, and
`some x` with `x` the outcome of the read otherwise. -/
def HexContainer.at_qr_const {T : Type} {R : Nat} {zero_base : Bool}
    (fuel : Nat) (g : HexContainer T R zero_base) (q_ r_ : Int) : Option (Option T) :=
  match fuel with
  | 0 => none
  | fuel + 1 => HexContainer.at_qr_const fuel g q_ r_

/-- The const overload `const_reference at ( const Hex<R> & h_ ) const`
(lines 152-154), which calls the const `at ( h_.q, h_.r )`. -/
def HexContainer.at_hex_const {T : Type} {R : Nat} {zero_base : Bool}
    (fuel : Nat) (g : HexContainer T R zero_base) (h_ : Hex (R : Int) true) :
    Option (Option T) :=
  g.at_qr_const fuel h_.q h_.r

/-- The const overload `const_reference operator [ ] ( const Hex<R> & h_ ) const`
(lines 159-161), which calls the const `at ( h_ )`. -/
def HexContainer.subscript_const {T : Type} {R : Nat} {zero_base : Bool}
    (fuel : Nat) (g : HexContainer T R zero_base) (h_ : Hex (R : Int) true) :
    Option (Option T) :=
  g.at_hex_const fuel h_

/-- The rows `m_data [ r ] [ q ]` in the order in which `operator <<`
(lines 170-179) writes them: `r` from `0` to `height ( ) - 1`, and in each row
`q` from `0` to `width ( ) - 1`. -/
def HexContainer.rows {T : Type} {R : Nat} {zero_base : Bool}
    (g : HexContainer T R zero_base) : List (List T) :=
  List.ofFn (fun r : Fin (2 * R + 1) => List.ofFn (fun q : Fin (2 * R + 1) => g.m_data r q))

/-- A sequence of statements `g.at ( q, r ) = v;`, one for each triple
`(q, r, v)` of the list, in order (as lines 187-193 and 199-205 of `main`). -/
def HexContainer.assign_all {T : Type} {R : Nat} {zero_base : Bool}
    (g : HexContainer T R zero_base) :
    List (Int × Int × T) → Option (HexContainer T R zero_base)
  | [] => some g
  | (q, r, v) :: ws => (g.at_qr_assign q r v).bind (fun g' => g'.assign_all ws)

/-- The container `center_based` of `main` after lines 185-193. -/
def main_center_based : Option (HexContainer Int 3 false) :=
  (HexContainer.init Int 3 false).assign_all
    [(0, -3, 1), (1, -3, 2), (-3, 0, 3), (0, 0, 4), (3, 0, 5), (2, 1, 8), (0, 3, 16)]

/-- The container `zero_based` of `main` after lines 197-205. -/
def main_zero_based : Option (HexContainer Int 3 true) :=
  (HexContainer.init Int 3 true).assign_all
    [(3, 0, 1), (4, 0, 2), (0, 3, 3), (3, 3, 4), (6, 3, 5), (5, 4, 8), (3, 6, 16)]

/-- The grid printed in the comment at the end of `main.cpp` (lines 215-223
for `cb`, and the same again, lines 225-233, for `zb`). -/
def expected_output : List (List Int) :=
  [[0, 0, 0, 1, 2, 0, 0],
   [0, 0, 0, 0, 0, 0, 0],
   [0, 0, 0, 0, 0, 0, 0],
   [3, 0, 0, 4, 0, 0, 5],
   [0, 0, 0, 0, 0, 8, 0],
   [0, 0, 0, 0, 0, 0, 0],
   [0, 0, 0, 16, 0, 0, 0]]

/-! ## Notions of the specification used to state the properties -/

/-- The enclosing `(2R+1) x (2R+1)` square of a convention: `[-R, R]` on both
axes for `Hex<R, true>`, `[0, 2R]` on both axes for `Hex<R, false>`. -/
def Hex.square (R : Int) (zero_base : Bool) : Finset (Int × Int) :=
  if zero_base then Finset.Icc (-R) R ×ˢ Finset.Icc (-R) R
  else Finset.Icc 0 (2 * R) ×ˢ Finset.Icc 0 (2 * R)

/-- The pairs of the enclosing square that `Hex<R, zero_base>::valid`
accepts. -/
def Hex.accepted (R : Int) (zero_base : Bool) : Finset (Int × Int) :=
  (Hex.square R zero_base).filter (fun p => Hex.valid_static R zero_base p.1 p.2 = true)

/-- The pairs of values of `value_type`, the parameter type of the static
`Hex<R, zero_base>::valid`. -/
def Hex.value_pairs (R : Int) : Finset (Int × Int) :=
  Finset.Icc (-(2 ^ (sidx R.toNat - 1))) (2 ^ (sidx R.toNat - 1) - 1) ×ˢ
    Finset.Icc (-(2 ^ (sidx R.toNat - 1))) (2 ^ (sidx R.toNat - 1) - 1)

/-- All the pairs of values of `value_type` that `Hex<R, zero_base>::valid`
accepts. -/
def Hex.accepted_values (R : Int) (zero_base : Bool) : Finset (Int × Int) :=
  (Hex.value_pairs R).filter (fun p => Hex.valid_static R zero_base p.1 p.2 = true)

/-- A value is representable in a signed integer type of `bits` bits. -/
def representable (bits : Nat) (x : Int) : Prop :=
  -(2 ^ (bits - 1)) ≤ x ∧ x ≤ 2 ^ (bits - 1) - 1

/-- A subscript pair lies in `[0, 2R]` on both axes. -/
def HexContainer.in_bounds (R : Nat) (i : Int × Int) : Prop :=
  (0 ≤ i.1 ∧ i.1 ≤ 2 * (R : Int)) ∧ (0 ≤ i.2 ∧ i.2 ≤ 2 * (R : Int))

instance (R : Nat) (i : Int × Int) : Decidable (HexContainer.in_bounds R i) := by
  unfold HexContainer.in_bounds
  infer_instance

/-! ## Auxiliary facts on the integer types -/

/-- For the radii that fit in 16 bits `sidx<R>` is `std::int16_t`. -/
theorem sidx_eq_16 (R : Nat) (h0 : 1 ≤ R) (h : R ≤ 32767) : sidx R = 16 := by
  have h1 : (2 * R + 1) % 2 ^ 64 = 2 * R + 1 := Nat.mod_eq_of_lt (by omega)
  have h2 : (2 * (2 * R + 1) + 3) % 2 ^ 64 = 4 * R + 5 := by omega
  have h3 : (4 * (2 * R + 1) + 3) % 2 ^ 64 = 8 * R + 7 := by omega
  have h4 : (4 * R + 5) * (8 * R + 7) < 2 ^ 64 := by
    calc (4 * R + 5) * (8 * R + 7) ≤ 131073 * 262143 :=
          Nat.mul_le_mul (by omega) (by omega)
      _ < 2 ^ 64 := by norm_num
  have h5 : 9 * 15 ≤ (4 * R + 5) * (8 * R + 7) :=
    Nat.mul_le_mul (by omega) (by omega)
  unfold sidx data_size rows_size cols_size
  rw [h1, h2, h3, Nat.mod_eq_of_lt h4, if_neg (by omega)]

/-- A value in the range of `std::int16_t` is left unchanged by the
conversion to it. -/
theorem to_signed_16_of_range (x : Int) (h1 : -32768 ≤ x) (h2 : x ≤ 32767) :
    to_signed 16 x = x := by
  unfold to_signed
  norm_num
  omega

/-- The conversion to `std::int16_t` lands in its range and differs from the
argument by a multiple of `65536`. -/
theorem to_signed_16_spec (x : Int) :
    -32768 ≤ to_signed 16 x ∧ to_signed 16 x ≤ 32767 ∧
      ∃ k : Int, to_signed 16 x = x + 65536 * k := by
  unfold to_signed
  norm_num
  refine ⟨by omega, by omega, ⟨-((x + 32768) / 65536), by omega⟩⟩

theorem Hex.to_value_eq (R x : Int) (hR : 0 < R) (hR' : R ≤ 32767) :
    Hex.to_value R x = to_signed 16 x := by
  unfold Hex.to_value
  rw [sidx_eq_16 R.toNat (by omega) (by omega)]

theorem Hex.to_value_of_range (R x : Int) (hR : 0 < R) (hR' : R ≤ 32767)
    (h1 : -32768 ≤ x) (h2 : x ≤ 32767) : Hex.to_value R x = x := by
  rw [Hex.to_value_eq R x hR hR', to_signed_16_of_range x h1 h2]

theorem Hex.radius_eq (R : Int) (hR : 0 < R) (hR' : R ≤ 32767) :
    Hex.radius R = R :=
  Hex.to_value_of_range R R hR hR' (by omega) hR'

theorem std_abs_eq (x : Int) : std_abs x = |x| := by
  unfold std_abs
  split_ifs with h
  · exact (abs_of_neg h).symm
  · exact (abs_of_nonneg (not_lt.mp h)).symm

/-- The static `valid` of the zero-based `Hex` on 16-bit arguments. -/
theorem Hex.valid_static_true_iff (R q r : Int) (hR : 0 < R) (hR' : R ≤ 32767)
    (hq1 : -32768 ≤ q) (hq2 : q ≤ 32767) (hr1 : -32768 ≤ r) (hr2 : r ≤ 32767) :
    Hex.valid_static R true q r = true ↔ (|q| ≤ R ∧ |r| ≤ R ∧ |-q - r| ≤ R) := by
  simp only [Hex.valid_static, Hex.in_valid_static, Hex.radius_eq R hR hR',
    Hex.to_value_of_range R q hR hR' hq1 hq2, Hex.to_value_of_range R r hR hR' hr1 hr2,
    std_abs_eq]
  simp [not_lt, and_assoc]

/-- The static `valid` of the center-based `Hex` on 16-bit arguments. -/
theorem Hex.valid_static_false_iff (R q r : Int) (hR : 0 < R) (hR' : R ≤ 32767)
    (hq1 : -32768 ≤ q) (hq2 : q ≤ 32767) (hr1 : -32768 ≤ r) (hr2 : r ≤ 32767) :
    Hex.valid_static R false q r = true ↔
      (|q - R| ≤ R ∧ |r - R| ≤ R ∧ |-q - r + 2 * R| ≤ R) := by
  simp only [Hex.valid_static, Hex.in_valid_static, Hex.radius_eq R hR hR',
    Hex.to_value_of_range R q hR hR' hq1 hq2, Hex.to_value_of_range R r hR hR' hr1 hr2,
    std_abs_eq]
  simp [not_lt, and_assoc]

/-- The instance `valid` reads the members as they are. -/
theorem Hex.valid_true_iff (R q r : Int) (hR : 0 < R) (hR' : R ≤ 32767) :
    Hex.valid ({ q := q, r := r } : Hex R true) = true ↔
      (|q| ≤ R ∧ |r| ≤ R ∧ |-q - r| ≤ R) := by
  simp only [Hex.valid, Hex.in_valid, Hex.radius_eq R hR hR', std_abs_eq]
  simp [not_lt, and_assoc]

theorem Hex.valid_false_iff (R q r : Int) (hR : 0 < R) (hR' : R ≤ 32767) :
    Hex.valid ({ q := q, r := r } : Hex R false) = true ↔
      (|q - R| ≤ R ∧ |r - R| ≤ R ∧ |-q - r + 2 * R| ≤ R) := by
  simp only [Hex.valid, Hex.in_valid, Hex.radius_eq R hR hR', std_abs_eq]
  simp [not_lt, and_assoc]

theorem sidx_cases (R : Nat) : sidx R = 8 ∨ sidx R = 16 := by
  unfold sidx
  split_ifs
  · exact Or.inl rfl
  · exact Or.inr rfl

/-- The radius as `value_type` never exceeds the template argument. -/
theorem Hex.radius_le (R : Int) (hR : 0 < R) : Hex.radius R ≤ R := by
  unfold Hex.radius Hex.to_value
  rcases sidx_cases R.toNat with h | h <;> rw [h] <;> unfold to_signed <;> norm_num <;> omega

/-- Every value of `value_type` lies in the range of `std::int16_t`. -/
theorem Hex.to_value_range (R x : Int) :
    -32768 ≤ Hex.to_value R x ∧ Hex.to_value R x ≤ 32767 := by
  unfold Hex.to_value
  rcases sidx_cases R.toNat with h | h <;> rw [h] <;> unfold to_signed <;> norm_num <;> omega

/-- The `int` arithmetic of the static `in_valid` stays inside 32 bits: every
operand of `std::abs` there is between `-2^31 + 1` and `2^31 - 1`. -/
theorem Hex.in_valid_static_no_overflow (R q r : Int) :
    |Hex.to_value R q| < 2 ^ 31 ∧ |Hex.to_value R r| < 2 ^ 31 ∧
    |-Hex.to_value R q - Hex.to_value R r| < 2 ^ 31 ∧
    |Hex.to_value R q - Hex.radius R| < 2 ^ 31 ∧
    |Hex.to_value R r - Hex.radius R| < 2 ^ 31 ∧
    |-Hex.to_value R q - Hex.to_value R r + 2 * Hex.radius R| < 2 ^ 31 := by
  have hq := Hex.to_value_range R q
  have hr := Hex.to_value_range R r
  have hrad : -32768 ≤ Hex.radius R ∧ Hex.radius R ≤ 32767 := Hex.to_value_range R R
  simp only [abs_lt]
  norm_num
  omega

/-- A value of `value_type` that passes the zero-based `valid` is at most `R`
in absolute value on both axes. -/
theorem Hex.valid_static_true_bound (R q r : Int) (hR : 0 < R)
    (hq : Hex.to_value R q = q) (hr : Hex.to_value R r = r)
    (hv : Hex.valid_static R true q r = true) :
    (-R ≤ q ∧ q ≤ R) ∧ (-R ≤ r ∧ r ≤ R) := by
  have hle := Hex.radius_le R hR
  simp only [Hex.valid_static, Hex.in_valid_static, hq, hr, std_abs_eq] at hv
  simp [not_lt, abs_le] at hv
  omega

theorem HexContainer.cell_of_in_bounds (R : Nat) (i : Int × Int)
    (hb : HexContainer.in_bounds R i) :
    ∃ c, HexContainer.cell R i = some c ∧ (c.1.val : Int) = i.1 ∧ (c.2.val : Int) = i.2 := by
  obtain ⟨⟨h1, h2⟩, h3, h4⟩ := hb
  have h : (0 ≤ i.1 ∧ i.1 < 2 * (R : Int) + 1) ∧ (0 ≤ i.2 ∧ i.2 < 2 * (R : Int) + 1) :=
    ⟨⟨h1, by omega⟩, h3, by omega⟩
  refine ⟨(⟨i.1.toNat, by omega⟩, ⟨i.2.toNat, by omega⟩), ?_, ?_, ?_⟩
  · unfold HexContainer.cell
    rw [dif_pos h]
  · exact Int.toNat_of_nonneg h1
  · exact Int.toNat_of_nonneg h3

theorem HexContainer.cell_of_fin (R : Nat) (i : Int × Int) (row col : Fin (2 * R + 1))
    (h1 : i.1 = (row.val : Int)) (h2 : i.2 = (col.val : Int)) :
    HexContainer.cell R i = some (row, col) := by
  have hr := row.isLt
  have hc := col.isLt
  have h : (0 ≤ i.1 ∧ i.1 < 2 * (R : Int) + 1) ∧ (0 ≤ i.2 ∧ i.2 < 2 * (R : Int) + 1) := by
    omega
  unfold HexContainer.cell
  rw [dif_pos h]
  simp only [Option.some.injEq, Prod.mk.injEq]
  constructor <;> apply Fin.ext <;> simp [h1, h2]

/-- Assigning through `at ( q_, r_ )` and reading back through it. -/
theorem HexContainer.at_qr_round_trip {T : Type} {R : Nat} {zero_base : Bool}
    (g : HexContainer T R zero_base) (v : T) (q r : Int)
    (hb : HexContainer.in_bounds R (HexContainer.at_index R zero_base q r)) :
    ∃ g', g.at_qr_assign q r v = some g' ∧ g'.at_qr q r = some v := by
  obtain ⟨c, hc, -, -⟩ := HexContainer.cell_of_in_bounds R _ hb
  refine ⟨{ m_data := fun row col =>
      if row = c.1 ∧ col = c.2 then v else g.m_data row col }, ?_, ?_⟩
  · simp [HexContainer.at_qr_assign, hc]
  · simp [HexContainer.at_qr, hc]

/-! ## Counting the cells of the hexagon -/

/-- Number of cells of one column of the hexagon of radius `R`. -/
theorem hex_row_card (R q : Int) (hq1 : -R ≤ q) (hq2 : q ≤ R) :
    (((Finset.Icc (-R) R).filter (fun r => |-q - r| ≤ R)).card : Int) = 2 * R + 1 - |q| := by
  have h : (Finset.Icc (-R) R).filter (fun r => |-q - r| ≤ R)
      = Finset.Icc (max (-R) (-R - q)) (min R (R - q)) := by
    ext r
    simp only [Finset.mem_filter, Finset.mem_Icc, abs_le, max_le_iff, le_min_iff]
    omega
  rw [h, Int.card_Icc]
  rcases abs_cases q with ⟨h1, h2⟩ | ⟨h1, h2⟩
  · rw [h1, max_eq_left (by omega), min_eq_right (by omega)]
    omega
  · rw [h1, max_eq_right (by omega), min_eq_left (by omega)]
    omega

theorem sum_abs_Icc (n : Nat) (c : Int) :
    ∑ q in Finset.Icc (-(n : Int)) n, (c - |q|) = (2 * n + 1) * c - n * (n + 1) := by
  induction n with
  | zero => simp
  | succ n ih =>
    have hI : Finset.Icc (-((n + 1 : Nat) : Int)) ((n + 1 : Nat) : Int)
        = insert (-((n : Int) + 1)) (insert ((n : Int) + 1) (Finset.Icc (-(n : Int)) n)) := by
      ext x
      simp only [Finset.mem_Icc, Finset.mem_insert, Nat.cast_add, Nat.cast_one]
      omega
    rw [hI, Finset.sum_insert, Finset.sum_insert, ih]
    · have e1 : |-((n : Int) + 1)| = n + 1 := by
        rw [abs_neg]; exact abs_of_nonneg (by omega)
      have e2 : |((n : Int) + 1)| = n + 1 := abs_of_nonneg (by omega)
      rw [e1, e2]
      push_cast
      ring
    · simp only [Finset.mem_Icc]; omega
    · simp only [Finset.mem_insert, Finset.mem_Icc]; omega

/-- The hexagon of radius `R` around the origin has `3R^2 + 3R + 1` cells. -/
theorem hexagon_card (R : Int) (hR : 0 ≤ R) :
    (((Finset.Icc (-R) R ×ˢ Finset.Icc (-R) R).filter
      (fun p => |p.1| ≤ R ∧ |p.2| ≤ R ∧ |-p.1 - p.2| ≤ R)).card : Int)
      = 3 * R ^ 2 + 3 * R + 1 := by
  have h1 : ((Finset.Icc (-R) R ×ˢ Finset.Icc (-R) R).filter
      (fun p => |p.1| ≤ R ∧ |p.2| ≤ R ∧ |-p.1 - p.2| ≤ R)).card
      = ∑ q in Finset.Icc (-R) R, ((Finset.Icc (-R) R).filter (fun r => |-q - r| ≤ R)).card := by
    rw [Finset.card_filter, Finset.sum_product]
    refine Finset.sum_congr rfl (fun q hq => ?_)
    rw [Finset.card_filter]
    refine Finset.sum_congr rfl (fun r hr => ?_)
    rw [Finset.mem_Icc] at hq hr
    have hq' : |q| ≤ R := abs_le.mpr hq
    have hr' : |r| ≤ R := abs_le.mpr hr
    simp [hq', hr']
  rw [h1]
  push_cast
  rw [Finset.sum_congr rfl (fun q hq => hex_row_card R q (Finset.mem_Icc.mp hq).1 (Finset.mem_Icc.mp hq).2)]
  obtain ⟨n, rfl⟩ := Int.eq_ofNat_of_zero_le hR
  rw [sum_abs_Icc]
  ring

/-- The hexagon of radius `R` around `(R, R)` has as many cells as the one
around the origin. -/
theorem hexagon_card_shifted (R : Int) (hR : 0 ≤ R) :
    (((Finset.Icc 0 (2 * R) ×ˢ Finset.Icc 0 (2 * R)).filter
      (fun p => |p.1 - R| ≤ R ∧ |p.2 - R| ≤ R ∧ |-p.1 - p.2 + 2 * R| ≤ R)).card : Int)
      = 3 * R ^ 2 + 3 * R + 1 := by
  rw [← hexagon_card R hR]
  congr 1
  symm
  refine Finset.card_nbij' (fun p => (p.1 + R, p.2 + R)) (fun p => (p.1 - R, p.2 - R))
    ?_ ?_ ?_ ?_
  · intro p hp
    simp only [Finset.mem_filter, Finset.mem_product, Finset.mem_Icc, abs_le] at hp ⊢
    omega
  · intro p hp
    simp only [Finset.mem_filter, Finset.mem_product, Finset.mem_Icc, abs_le] at hp ⊢
    omega
  · intro p _
    simp
  · intro p _
    simp

/-- On its enclosing square the zero-based `valid` is the hexagon around the
origin, as long as the radius fits in `value_type`. -/
theorem Hex.accepted_true_eq (R : Int) (hR : 0 < R) (hR' : R ≤ 32767) :
    Hex.accepted R true = (Finset.Icc (-R) R ×ˢ Finset.Icc (-R) R).filter
      (fun p => |p.1| ≤ R ∧ |p.2| ≤ R ∧ |-p.1 - p.2| ≤ R) := by
  unfold Hex.accepted Hex.square
  rw [if_pos rfl]
  refine Finset.filter_congr (fun p hp => ?_)
  simp only [Finset.mem_product, Finset.mem_Icc] at hp
  exact Hex.valid_static_true_iff R p.1 p.2 hR hR' (by omega) (by omega) (by omega) (by omega)

/-- On its enclosing square the center-based `valid` is the hexagon around
`(R, R)`, as long as `2R` fits in `value_type`. -/
theorem Hex.accepted_false_eq (R : Int) (hR : 0 < R) (hR' : R ≤ 16383) :
    Hex.accepted R false = (Finset.Icc 0 (2 * R) ×ˢ Finset.Icc 0 (2 * R)).filter
      (fun p => |p.1 - R| ≤ R ∧ |p.2 - R| ≤ R ∧ |-p.1 - p.2 + 2 * R| ≤ R) := by
  unfold Hex.accepted Hex.square
  rw [if_neg (by simp)]
  refine Finset.filter_congr (fun p hp => ?_)
  simp only [Finset.mem_product, Finset.mem_Icc] at hp
  exact Hex.valid_static_false_iff R p.1 p.2 hR (by omega) (by omega) (by omega) (by omega)
    (by omega)

theorem Hex.accepted_card (R : Int) (zero_base : Bool) (hR : 0 < R)
    (hR' : R ≤ if zero_base then 32767 else 16383) :
    ((Hex.accepted R zero_base).card : Int) = 3 * R ^ 2 + 3 * R + 1 := by
  cases zero_base
  · rw [Hex.accepted_false_eq R hR (by simpa using hR')]
    exact hexagon_card_shifted R hR.le
  · rw [Hex.accepted_true_eq R hR (by simpa using hR')]
    exact hexagon_card R hR.le

/-- The offset `R` relates the two conventions of `valid` on all integer
arguments, as long as `2R` fits in `value_type`. -/
theorem Hex.valid_static_shift (R q r : Int) (hR : 0 < R) (hR' : R ≤ 16383) :
    Hex.valid_static R true q r = Hex.valid_static R false (q + R) (r + R) := by
  have hR2 : R ≤ 32767 := by omega
  obtain ⟨a1, a2, ka, ha⟩ := to_signed_16_spec q
  obtain ⟨b1, b2, kb, hb⟩ := to_signed_16_spec r
  obtain ⟨c1, c2, kc, hc⟩ := to_signed_16_spec (q + R)
  obtain ⟨d1, d2, kd, hd⟩ := to_signed_16_spec (r + R)
  rw [Bool.eq_iff_iff]
  simp only [Hex.valid_static, Hex.in_valid_static, Hex.radius_eq R hR hR2,
    Hex.to_value_eq R _ hR hR2, std_abs_eq]
  generalize to_signed 16 q = a at *
  generalize to_signed 16 r = b at *
  generalize to_signed 16 (q + R) = c at *
  generalize to_signed 16 (r + R) = d at *
  simp only [Bool.if_true_left, Bool.if_false_right, if_true, if_false, Bool.not_eq_true',
    Bool.or_eq_false_iff, decide_eq_false_iff_not, not_lt, gt_iff_lt, abs_le,
    Bool.false_eq_true, ↓reduceIte, Bool.not_or, Bool.and_eq_true, Bool.not_eq_eq_eq_not,
    Bool.not_true]
  omega

/-- With `R = 32768` the radius as `value_type` is negative and `valid`
rejects every pair. -/
theorem Hex.valid_static_32768 (zero_base : Bool) (q r : Int) :
    Hex.valid_static 32768 zero_base q r = false := by
  have hrad : Hex.radius 32768 = -32768 := by decide
  have h0 : ∀ x : Int, Hex.radius 32768 < std_abs x := by
    intro x
    rw [hrad, std_abs_eq]
    have := abs_nonneg x
    omega
  cases zero_base <;> simp [Hex.valid_static, Hex.in_valid_static, h0]

/-- On its enclosing square the center-based `valid` accepts cells of the
hexagon around `(R, R)` only. -/
theorem Hex.accepted_false_subset (R : Int) (hR : 0 < R) (hR' : R ≤ 32767) :
    Hex.accepted R false ⊆ (Finset.Icc 0 (2 * R) ×ˢ Finset.Icc 0 (2 * R)).filter
      (fun p => |p.1 - R| ≤ R ∧ |p.2 - R| ≤ R ∧ |-p.1 - p.2 + 2 * R| ≤ R) := by
  intro p hp
  unfold Hex.accepted Hex.square at hp
  rw [if_neg (by simp), Finset.mem_filter] at hp
  obtain ⟨hsq, hv⟩ := hp
  rw [Finset.mem_filter]
  refine ⟨hsq, ?_⟩
  simp only [Finset.mem_product, Finset.mem_Icc] at hsq
  obtain ⟨a1, a2, ka, ha⟩ := to_signed_16_spec p.1
  obtain ⟨b1, b2, kb, hb⟩ := to_signed_16_spec p.2
  simp only [Hex.valid_static, Hex.in_valid_static, Hex.radius_eq R hR hR',
    Hex.to_value_eq R _ hR hR', std_abs_eq] at hv
  generalize to_signed 16 p.1 = a at *
  generalize to_signed 16 p.2 = b at *
  simp only [Bool.false_eq_true, ↓reduceIte, Bool.not_eq_true', Bool.or_eq_false_iff,
    decide_eq_false_iff_not, not_lt, gt_iff_lt, abs_le] at hv
  simp only [abs_le]
  omega

/-- For `16384 <= R <= 32767` the cell `(2R, R)` of the hexagon is not a pair
of values of `value_type`, and the center-based `valid` accepts fewer pairs of
its square than the hexagon has cells. -/
theorem Hex.accepted_false_card_lt (R : Int) (hR : 16384 ≤ R) (hR' : R ≤ 32767) :
    ((Hex.accepted R false).card : Int) < 3 * R ^ 2 + 3 * R + 1 := by
  have hR0 : 0 < R := by omega
  rw [← hexagon_card_shifted R hR0.le]
  refine Nat.cast_lt.mpr (Finset.card_lt_card ?_)
  refine (Finset.ssubset_iff_of_subset (Hex.accepted_false_subset R hR0 hR')).mpr
    ⟨(2 * R, R), ?_, ?_⟩
  · simp only [Finset.mem_filter, Finset.mem_product, Finset.mem_Icc, abs_le]
    omega
  · unfold Hex.accepted
    rw [Finset.mem_filter]
    rintro ⟨-, hv⟩
    obtain ⟨a1, a2, ka, ha⟩ := to_signed_16_spec (2 * R)
    simp only [Hex.valid_static, Hex.in_valid_static, Hex.radius_eq R hR0 hR',
      Hex.to_value_eq R _ hR0 hR', std_abs_eq] at hv
    generalize to_signed 16 (2 * R) = a at *
    simp only [Bool.false_eq_true, ↓reduceIte, Bool.not_eq_true', Bool.or_eq_false_iff,
      decide_eq_false_iff_not, not_lt, gt_iff_lt, abs_le] at hv
    omega

/-- The const `at ( q_, r_ )` has not returned after any number of nested
calls. -/
theorem HexContainer.at_qr_const_none {T : Type} {R : Nat} {zero_base : Bool}
    (fuel : Nat) (g : HexContainer T R zero_base) (q r : Int) :
    g.at_qr_const fuel q r = none := by
  induction fuel with
  | zero => rfl
  | succ n ih => exact ih

/-- The sentinel written by `nil ( )`, for the radii that fit in 16 bits. -/
theorem Hex.nil_value (R : Int) (hR : 0 < R) (hR' : R ≤ 32767) :
    Hex.to_value R (-Hex.radius R - 1) = -R - 1 := by
  rw [Hex.radius_eq R hR hR']
  exact Hex.to_value_of_range R _ hR hR' (by omega) (by omega)

/-! ## Auxiliary facts on the index map of `at` -/

theorem HexContainer.cell_some_val (R : Nat) (i : Int × Int)
    (c : Fin (2 * R + 1) × Fin (2 * R + 1)) (hc : HexContainer.cell R i = some c) :
    (c.1.val : Int) = i.1 ∧ (c.2.val : Int) = i.2 := by
  unfold HexContainer.cell at hc
  split_ifs at hc with h
  simp only [Option.some.injEq] at hc
  subst hc
  exact ⟨Int.toNat_of_nonneg h.1.1, Int.toNat_of_nonneg h.2.1⟩

theorem HexContainer.cell_some_in_bounds (R : Nat) (i : Int × Int)
    (c : Fin (2 * R + 1) × Fin (2 * R + 1)) (hc : HexContainer.cell R i = some c) :
    HexContainer.in_bounds R i := by
  obtain ⟨h1, h2⟩ := HexContainer.cell_some_val R i c hc
  have hr := c.1.isLt
  have hq := c.2.isLt
  unfold HexContainer.in_bounds
  omega

/-- The index map of `at` is injective under both conventions. -/
theorem HexContainer.at_index_inj (R : Nat) (zero_base : Bool) (q1 r1 q2 r2 : Int)
    (h : HexContainer.at_index R zero_base q1 r1 = HexContainer.at_index R zero_base q2 r2) :
    q1 = q2 ∧ r1 = r2 := by
  cases zero_base
  · simp only [HexContainer.at_index, HexContainer.radius, Bool.false_eq_true, ↓reduceIte,
      Prod.mk.injEq] at h
    obtain ⟨h1, h2⟩ := h
    have hr : r1 = r2 := by omega
    subst hr
    exact ⟨by omega, rfl⟩
  · simp only [HexContainer.at_index, ↓reduceIte, Prod.mk.injEq] at h
    exact ⟨h.2, h.1⟩

/-- In-bounds subscripts of the container with `zero_base = false`. -/
theorem HexContainer.in_bounds_false_iff (R : Nat) (q r : Int) :
    HexContainer.in_bounds R (HexContainer.at_index R false q r) ↔
      ((-(R : Int) ≤ q ∧ q ≤ R) ∧ (-(R : Int) ≤ r ∧ r ≤ R)) := by
  simp only [HexContainer.in_bounds, HexContainer.at_index, HexContainer.radius,
    Bool.false_eq_true, ↓reduceIte]
  omega

/-- In-bounds subscripts of the container with `zero_base = true`. -/
theorem HexContainer.in_bounds_true_iff (R : Nat) (q r : Int) :
    HexContainer.in_bounds R (HexContainer.at_index R true q r) ↔
      ((0 ≤ q ∧ q ≤ 2 * (R : Int)) ∧ (0 ≤ r ∧ r ≤ 2 * (R : Int))) := by
  simp only [HexContainer.in_bounds, HexContainer.at_index, ↓reduceIte]
  omega

/-- For `-R <= r <= R` both containers subscript the cell `(r + R, q + R)`. -/
theorem HexContainer.at_index_shift (R : Nat) (q r : Int) (hr : r ≤ (R : Int)) :
    HexContainer.at_index R false q r = (r + (R : Int), q + (R : Int)) ∧
    HexContainer.at_index R true (q + R) (r + R) = (r + (R : Int), q + (R : Int)) := by
  simp [HexContainer.at_index, HexContainer.radius, max_eq_left hr]

/-- Assigning through `at` changes the designated cell only. -/
theorem HexContainer.at_qr_assign_m_data {T : Type} {R : Nat} {zero_base : Bool}
    (g g' : HexContainer T R zero_base) (q r : Int) (v : T)
    (h : g.at_qr_assign q r v = some g') :
    ∃ c, HexContainer.cell R (HexContainer.at_index R zero_base q r) = some c ∧
      g'.m_data = fun row col => if row = c.1 ∧ col = c.2 then v else g.m_data row col := by
  unfold HexContainer.at_qr_assign at h
  cases hc : HexContainer.cell R (HexContainer.at_index R zero_base q r) with
  | none => simp [hc] at h
  | some c =>
    refine ⟨c, rfl, ?_⟩
    simp only [hc, Option.map_some', Option.some.injEq] at h
    rw [← h]

/-- The same writes, with centre-origin coordinates on the container with
`zero_base = false` and with the coordinates shifted by `R` on the container
with `zero_base = true`, keep equal arrays equal. -/
theorem HexContainer.assign_all_shift {T : Type} {R : Nat} (ws : List (Int × Int × T)) :
    ∀ (g1 : HexContainer T R false) (g2 : HexContainer T R true),
      g1.m_data = g2.m_data →
      (∀ w ∈ ws, (-(R : Int) ≤ w.1 ∧ w.1 ≤ R) ∧ (-(R : Int) ≤ w.2.1 ∧ w.2.1 ≤ R)) →
      ∃ g1' g2', g1.assign_all ws = some g1' ∧
        g2.assign_all (ws.map (fun w => (w.1 + (R : Int), w.2.1 + (R : Int), w.2.2)))
          = some g2' ∧
        g1'.m_data = g2'.m_data := by
  induction ws with
  | nil =>
    intro g1 g2 h _
    exact ⟨g1, g2, rfl, rfl, h⟩
  | cons w ws ih =>
    intro g1 g2 h hws
    obtain ⟨q, r, v⟩ := w
    have hw := hws (q, r, v) (List.mem_cons_self _ _)
    simp only at hw
    obtain ⟨e1, e2⟩ := HexContainer.at_index_shift R q r hw.2.2
    have hb : HexContainer.in_bounds R (HexContainer.at_index R false q r) :=
      (HexContainer.in_bounds_false_iff R q r).mpr hw
    obtain ⟨c, hc, -, -⟩ := HexContainer.cell_of_in_bounds R _ hb
    have hc2 : HexContainer.cell R (HexContainer.at_index R true (q + R) (r + R)) = some c := by
      rw [e2, ← e1, hc]
    obtain ⟨g1', g2', h1, h2, h3⟩ := ih
      { m_data := fun row col => if row = c.1 ∧ col = c.2 then v else g1.m_data row col }
      { m_data := fun row col => if row = c.1 ∧ col = c.2 then v else g2.m_data row col }
      (by simp only [h]) (fun w hw' => hws w (List.mem_cons_of_mem _ hw'))
    refine ⟨g1', g2', ?_, ?_, h3⟩
    · simp only [HexContainer.assign_all, HexContainer.at_qr_assign, hc, Option.map_some',
        Option.some_bind]
      exact h1
    · simp only [List.map_cons, HexContainer.assign_all, HexContainer.at_qr_assign, hc2,
        Option.map_some', Option.some_bind]
      exact h2

/-- A coordinate that passes the instance `valid` of `Hex<R, true>` is at
most `R` in absolute value on both axes. -/
theorem Hex.valid_true_bound (R q r : Int) (hR : 0 < R)
    (hv : Hex.valid ({ q := q, r := r } : Hex R true) = true) :
    (-R ≤ q ∧ q ≤ R) ∧ (-R ≤ r ∧ r ≤ R) := by
  have hle := Hex.radius_le R hR
  simp only [Hex.valid, Hex.in_valid, std_abs_eq] at hv
  simp [not_lt, abs_le] at hv
  omega

/-- A coordinate that passes the instance `valid` of `Hex<R, false>` lies in
`[0, 2R]` on both axes. -/
theorem Hex.valid_false_bound (R q r : Int) (hR : 0 < R)
    (hv : Hex.valid ({ q := q, r := r } : Hex R false) = true) :
    (0 ≤ q ∧ q ≤ 2 * R) ∧ (0 ≤ r ∧ r ≤ 2 * R) := by
  have hle := Hex.radius_le R hR
  simp only [Hex.valid, Hex.in_valid, std_abs_eq] at hv
  simp [not_lt, abs_le] at hv
  omega

/-- A pair of values of `value_type` that passes the static `valid` of
`Hex<R, false>` lies in `[0, 2R]` on both axes. -/
theorem Hex.valid_static_false_bound (R q r : Int) (hR : 0 < R)
    (hq : Hex.to_value R q = q) (hr : Hex.to_value R r = r)
    (hv : Hex.valid_static R false q r = true) :
    (0 ≤ q ∧ q ≤ 2 * R) ∧ (0 ≤ r ∧ r ≤ 2 * R) := by
  have hle := Hex.radius_le R hR
  simp only [Hex.valid_static, Hex.in_valid_static, hq, hr, std_abs_eq] at hv
  simp [not_lt, abs_le] at hv
  omega

/-! ## Auxiliary facts for the dimension accessors and the type selection -/

/-- A representable value is left unchanged by the conversion to the signed
type. -/
theorem to_signed_of_representable (bits : Nat) (hb : 1 ≤ bits) (x : Int)
    (h : representable bits x) : to_signed bits x = x := by
  obtain ⟨h1, h2⟩ := h
  have hp : (2 : Int) ^ bits = 2 * 2 ^ (bits - 1) := by
    obtain ⟨k, rfl⟩ : ∃ k, bits = k + 1 := ⟨bits - 1, by omega⟩
    simp [pow_succ, mul_comm]
  unfold to_signed
  rw [hp, Int.emod_eq_of_lt (by omega) (by omega)]
  omega

/-- Without wrap-around in `std::size_t` the selection of `uidx<R>` compares
`(4R+5)(8R+7)` with 255. -/
theorem uidx_eq (R : Nat) (hwrap : (4 * R + 5) * (8 * R + 7) < 2 ^ 64) :
    uidx R = if (4 * R + 5) * (8 * R + 7) < 255 then 8 else 16 := by
  have h4 : 4 * R + 5 ≤ (4 * R + 5) * (8 * R + 7) := Nat.le_mul_of_pos_right _ (by omega)
  have h8 : 8 * R + 7 ≤ (4 * R + 5) * (8 * R + 7) := Nat.le_mul_of_pos_left _ (by omega)
  have h1 : (2 * R + 1) % 2 ^ 64 = 2 * R + 1 := Nat.mod_eq_of_lt (by omega)
  have h2 : (2 * (2 * R + 1) + 3) % 2 ^ 64 = 4 * R + 5 := by omega
  have h3 : (4 * (2 * R + 1) + 3) % 2 ^ 64 = 8 * R + 7 := by omega
  unfold uidx data_size rows_size cols_size
  rw [h1, h2, h3, Nat.mod_eq_of_lt hwrap]

/-! ## Auxiliary facts on the accepted pairs of values -/

theorem Hex.value_pairs_eq (R : Int) (hR : 0 < R) (hR' : R ≤ 32767) :
    Hex.value_pairs R =
      Finset.Icc (-32768) 32767 ×ˢ Finset.Icc (-32768) 32767 := by
  unfold Hex.value_pairs
  rw [sidx_eq_16 R.toNat (by omega) (by omega)]
  norm_num

/-- A pair of the center-based square that `valid` accepts consists of
16-bit values. -/
theorem Hex.valid_static_false_16bit (R q r : Int) (hR : 0 < R) (hR' : R ≤ 32767)
    (hq : 0 ≤ q ∧ q ≤ 2 * R) (hr : 0 ≤ r ∧ r ≤ 2 * R)
    (hv : Hex.valid_static R false q r = true) : q ≤ 32767 ∧ r ≤ 32767 := by
  obtain ⟨a1, a2, ka, ha⟩ := to_signed_16_spec q
  obtain ⟨b1, b2, kb, hb⟩ := to_signed_16_spec r
  simp only [Hex.valid_static, Hex.in_valid_static, Hex.radius_eq R hR hR',
    Hex.to_value_eq R _ hR hR', std_abs_eq] at hv
  generalize to_signed 16 q = a at *
  generalize to_signed 16 r = b at *
  simp only [Bool.false_eq_true, ↓reduceIte, Bool.not_eq_true', Bool.or_eq_false_iff,
    decide_eq_false_iff_not, not_lt, gt_iff_lt, abs_le] at hv
  omega

/-- A pair of 16-bit values that `valid` accepts lies in the enclosing square
of the convention. -/
theorem Hex.valid_static_mem_square (R : Int) (zero_base : Bool) (q r : Int)
    (hR : 0 < R) (hR' : R ≤ 32767)
    (hq1 : -32768 ≤ q) (hq2 : q ≤ 32767) (hr1 : -32768 ≤ r) (hr2 : r ≤ 32767)
    (hv : Hex.valid_static R zero_base q r = true) : (q, r) ∈ Hex.square R zero_base := by
  cases zero_base
  · rw [Hex.valid_static_false_iff R q r hR hR' hq1 hq2 hr1 hr2] at hv
    simp only [abs_le] at hv
    simp only [Hex.square, Bool.false_eq_true, ↓reduceIte, Finset.mem_product,
      Finset.mem_Icc]
    omega
  · rw [Hex.valid_static_true_iff R q r hR hR' hq1 hq2 hr1 hr2] at hv
    simp only [abs_le] at hv
    simp only [Hex.square, ↓reduceIte, Finset.mem_product, Finset.mem_Icc]
    omega

/-- For the radii that fit in 16 bits the pairs of values that `valid`
accepts are the accepted pairs of the enclosing square. -/
theorem Hex.accepted_values_eq (R : Int) (zero_base : Bool) (hR : 0 < R) (hR' : R ≤ 32767) :
    Hex.accepted_values R zero_base = Hex.accepted R zero_base := by
  ext p
  unfold Hex.accepted_values Hex.accepted
  rw [Hex.value_pairs_eq R hR hR']
  simp only [Finset.mem_filter, Finset.mem_product, Finset.mem_Icc]
  constructor
  · rintro ⟨⟨⟨h1, h2⟩, h3, h4⟩, hv⟩
    exact ⟨Hex.valid_static_mem_square R zero_base p.1 p.2 hR hR' h1 h2 h3 h4 hv, hv⟩
  · rintro ⟨hsq, hv⟩
    refine ⟨?_, hv⟩
    cases zero_base
    · simp only [Hex.square, Bool.false_eq_true, ↓reduceIte, Finset.mem_product,
        Finset.mem_Icc] at hsq
      have := Hex.valid_static_false_16bit R p.1 p.2 hR hR' hsq.1 hsq.2 hv
      omega
    · simp only [Hex.square, ↓reduceIte, Finset.mem_product, Finset.mem_Icc] at hsq
      omega

/-! ## The properties -/

/-- C1: for `0 < R <= 32767` and 16-bit `q`, `r`, the static `valid(q, r)` and
the instance `valid()` of `Hex<R, true>` on a coordinate holding `(q, r)` are
true exactly when `|q| <= R`, `|r| <= R` and `|-q-r| <= R`, and `in_valid`
(static and instance) is the negation of that result. -/
theorem C1_zero_based_valid (R q r : Int) (hR : 0 < R) (hR' : R ≤ 32767)
    (hq : -32768 ≤ q ∧ q ≤ 32767) (hr : -32768 ≤ r ∧ r ≤ 32767) :
    (Hex.valid_static R true q r = true ↔ (|q| ≤ R ∧ |r| ≤ R ∧ |-q - r| ≤ R)) ∧
    (Hex.valid ({ q := q, r := r } : Hex R true) = true ↔
      (|q| ≤ R ∧ |r| ≤ R ∧ |-q - r| ≤ R)) ∧
    (Hex.in_valid_static R true q r = true ↔ ¬ (|q| ≤ R ∧ |r| ≤ R ∧ |-q - r| ≤ R)) ∧
    (Hex.in_valid ({ q := q, r := r } : Hex R true) = true ↔
      ¬ (|q| ≤ R ∧ |r| ≤ R ∧ |-q - r| ≤ R)) := by
  have hs := Hex.valid_static_true_iff R q r hR hR' hq.1 hq.2 hr.1 hr.2
  have hi := Hex.valid_true_iff R q r hR hR'
  refine ⟨hs, hi, ?_, ?_⟩
  · rw [← hs]; simp [Hex.valid_static]
  · rw [← hi]; simp [Hex.valid]

theorem C1_zero_based_valid_witness :
    (Hex.valid_static 3 true 1 (-3) = true ↔ (|(1 : Int)| ≤ 3 ∧ |(-3 : Int)| ≤ 3 ∧ |-(1 : Int) - (-3)| ≤ 3)) ∧
    (Hex.valid ({ q := 1, r := -3 } : Hex 3 true) = true ↔
      (|(1 : Int)| ≤ 3 ∧ |(-3 : Int)| ≤ 3 ∧ |-(1 : Int) - (-3)| ≤ 3)) ∧
    (Hex.in_valid_static 3 true 1 (-3) = true ↔
      ¬ (|(1 : Int)| ≤ 3 ∧ |(-3 : Int)| ≤ 3 ∧ |-(1 : Int) - (-3)| ≤ 3)) ∧
    (Hex.in_valid ({ q := 1, r := -3 } : Hex 3 true) = true ↔
      ¬ (|(1 : Int)| ≤ 3 ∧ |(-3 : Int)| ≤ 3 ∧ |-(1 : Int) - (-3)| ≤ 3)) :=
  C1_zero_based_valid 3 1 (-3) (by decide) (by decide) (by decide) (by decide)

/-- C2: for `0 < R <= 32767` and 16-bit `q`, `r`, the static `valid(q, r)` and
the instance `valid()` of `Hex<R, false>` on a coordinate holding `(q, r)` are
true exactly when `|q-R| <= R`, `|r-R| <= R` and `|-q-r+2R| <= R`, and
`in_valid` (static and instance) is the negation of that result. -/
theorem C2_center_based_valid (R q r : Int) (hR : 0 < R) (hR' : R ≤ 32767)
    (hq : -32768 ≤ q ∧ q ≤ 32767) (hr : -32768 ≤ r ∧ r ≤ 32767) :
    (Hex.valid_static R false q r = true ↔
      (|q - R| ≤ R ∧ |r - R| ≤ R ∧ |-q - r + 2 * R| ≤ R)) ∧
    (Hex.valid ({ q := q, r := r } : Hex R false) = true ↔
      (|q - R| ≤ R ∧ |r - R| ≤ R ∧ |-q - r + 2 * R| ≤ R)) ∧
    (Hex.in_valid_static R false q r = true ↔
      ¬ (|q - R| ≤ R ∧ |r - R| ≤ R ∧ |-q - r + 2 * R| ≤ R)) ∧
    (Hex.in_valid ({ q := q, r := r } : Hex R false) = true ↔
      ¬ (|q - R| ≤ R ∧ |r - R| ≤ R ∧ |-q - r + 2 * R| ≤ R)) := by
  have hs := Hex.valid_static_false_iff R q r hR hR' hq.1 hq.2 hr.1 hr.2
  have hi := Hex.valid_false_iff R q r hR hR'
  refine ⟨hs, hi, ?_, ?_⟩
  · rw [← hs]; simp [Hex.valid_static]
  · rw [← hi]; simp [Hex.valid]

theorem C2_center_based_valid_witness :
    (Hex.valid_static 3 false 5 4 = true ↔
      (|(5 : Int) - 3| ≤ 3 ∧ |(4 : Int) - 3| ≤ 3 ∧ |-(5 : Int) - 4 + 2 * 3| ≤ 3)) ∧
    (Hex.valid ({ q := 5, r := 4 } : Hex 3 false) = true ↔
      (|(5 : Int) - 3| ≤ 3 ∧ |(4 : Int) - 3| ≤ 3 ∧ |-(5 : Int) - 4 + 2 * 3| ≤ 3)) ∧
    (Hex.in_valid_static 3 false 5 4 = true ↔
      ¬ (|(5 : Int) - 3| ≤ 3 ∧ |(4 : Int) - 3| ≤ 3 ∧ |-(5 : Int) - 4 + 2 * 3| ≤ 3)) ∧
    (Hex.in_valid ({ q := 5, r := 4 } : Hex 3 false) = true ↔
      ¬ (|(5 : Int) - 3| ≤ 3 ∧ |(4 : Int) - 3| ≤ 3 ∧ |-(5 : Int) - 4 + 2 * 3| ≤ 3)) :=
  C2_center_based_valid 3 5 4 (by decide) (by decide) (by decide) (by decide)

/-- C3: for `R > 0` and all integers `q`, `r`, `at(q, r)` subscripts `m_data`
with `(row, column) = (r, q)` when `zero_base` is true and with
`(r + R, q + max(R, r))` when it is false; whenever that pair designates a cell
of the array, reading through `at(q, r)` yields the content of that cell. -/
theorem C3_at_index_mapping (R : Nat) (hR : 0 < R) (q r : Int) :
    HexContainer.at_index R true q r = (r, q) ∧
    HexContainer.at_index R false q r = (r + (R : Int), q + max (R : Int) r) ∧
    (∀ (T : Type) (g : HexContainer T R true) (row col : Fin (2 * R + 1)),
      r = (row.val : Int) → q = (col.val : Int) →
        g.at_qr q r = some (g.m_data row col)) ∧
    (∀ (T : Type) (g : HexContainer T R false) (row col : Fin (2 * R + 1)),
      r + (R : Int) = (row.val : Int) → q + max (R : Int) r = (col.val : Int) →
        g.at_qr q r = some (g.m_data row col)) := by
  have _h := hR
  refine ⟨rfl, rfl, ?_, ?_⟩
  · intro T g row col h1 h2
    have hc := HexContainer.cell_of_fin R (HexContainer.at_index R true q r) row col h1 h2
    simp [HexContainer.at_qr, hc]
  · intro T g row col h1 h2
    have hc := HexContainer.cell_of_fin R (HexContainer.at_index R false q r) row col h1 h2
    simp [HexContainer.at_qr, hc]

theorem C3_at_index_mapping_witness :
    HexContainer.at_index 3 true 2 1 = (1, 2) ∧
    HexContainer.at_index 3 false 2 1 = (1 + ((3 : Nat) : Int), 2 + max ((3 : Nat) : Int) 1) ∧
    (∀ (T : Type) (g : HexContainer T 3 true) (row col : Fin (2 * 3 + 1)),
      (1 : Int) = (row.val : Int) → (2 : Int) = (col.val : Int) →
        g.at_qr 2 1 = some (g.m_data row col)) ∧
    (∀ (T : Type) (g : HexContainer T 3 false) (row col : Fin (2 * 3 + 1)),
      (1 : Int) + ((3 : Nat) : Int) = (row.val : Int) →
      (2 : Int) + max ((3 : Nat) : Int) 1 = (col.val : Int) →
        g.at_qr 2 1 = some (g.m_data row col)) :=
  C3_at_index_mapping 3 (by decide) 2 1

/-- C4 (evaluation at the failing inputs): with `R = 1` the coordinate
`(-1, 0)` is accepted by `Hex<1, true>::valid`, yet `at(-1, 0)` of the
container with `zero_base = true` subscripts `m_data` with `(0, -1)`, outside
of `[0, 2]`; likewise `(0, 2)` is accepted by `Hex<1, false>::valid`, yet
`at(0, 2)` of the container with `zero_base = false` subscripts `m_data` with
`(3, 2)`. -/
theorem C4_valid_does_not_guard_at :
    Hex.valid_static 1 true (-1) 0 = true ∧
    HexContainer.at_index 1 true (-1) 0 = (0, -1) ∧
    ¬ HexContainer.in_bounds 1 (HexContainer.at_index 1 true (-1) 0) ∧
    (HexContainer.init Int 1 true).at_qr (-1) 0 = none ∧
    (HexContainer.init Int 1 true).at_hex ({ q := -1, r := 0 } : Hex ((1 : Nat) : Int) true) = none ∧
    Hex.valid_static 1 false 0 2 = true ∧
    HexContainer.at_index 1 false 0 2 = (3, 2) ∧
    ¬ HexContainer.in_bounds 1 (HexContainer.at_index 1 false 0 2) ∧
    (HexContainer.init Int 1 false).at_qr 0 2 = none := by
  decide

/-- C5: for `0 < R <= 32767` and both conventions, the default-constructed
coordinate and any coordinate after `nil()` hold `(-R-1, -R-1)`, `valid()`
returns false on them and `in_valid()` returns true; so do the static
overloads at `(-R-1, -R-1)`. -/
theorem C5_nil_never_valid (R : Int) (zero_base : Bool) (hR : 0 < R) (hR' : R ≤ 32767) :
    ({} : Hex R zero_base) = { q := -R - 1, r := -R - 1 } ∧
    (∀ h : Hex R zero_base, h.nil = { q := -R - 1, r := -R - 1 }) ∧
    Hex.valid ({ q := -R - 1, r := -R - 1 } : Hex R zero_base) = false ∧
    Hex.in_valid ({ q := -R - 1, r := -R - 1 } : Hex R zero_base) = true ∧
    Hex.valid_static R zero_base (-R - 1) (-R - 1) = false ∧
    Hex.in_valid_static R zero_base (-R - 1) (-R - 1) = true := by
  have hrad := Hex.radius_eq R hR hR'
  have hnil : Hex.to_value R (-Hex.radius R - 1) = -R - 1 := by
    rw [hrad]
    exact Hex.to_value_of_range R _ hR hR' (by omega) (by omega)
  have hnil' : Hex.to_value R (-R - 1) = -R - 1 := by rw [hrad] at hnil; exact hnil
  have hi : Hex.in_valid ({ q := -R - 1, r := -R - 1 } : Hex R zero_base) = true := by
    cases zero_base
    all_goals simp only [Hex.in_valid, hrad, std_abs_eq]
    all_goals simp [lt_abs]
    all_goals omega
  have hs : Hex.in_valid_static R zero_base (-R - 1) (-R - 1) = true := by
    cases zero_base
    all_goals simp only [Hex.in_valid_static, hnil', hrad, std_abs_eq]
    all_goals simp [lt_abs]
    all_goals omega
  refine ⟨?_, ?_, ?_, hi, ?_, hs⟩
  · rw [hnil]
  · intro h
    simp [Hex.nil, hnil]
  · simp [Hex.valid, hi]
  · simp [Hex.valid_static, hs]

theorem C5_nil_never_valid_witness :
    ({} : Hex 3 false) = { q := -3 - 1, r := -3 - 1 } ∧
    (∀ h : Hex 3 false, h.nil = { q := -3 - 1, r := -3 - 1 }) ∧
    Hex.valid ({ q := -3 - 1, r := -3 - 1 } : Hex 3 false) = false ∧
    Hex.in_valid ({ q := -3 - 1, r := -3 - 1 } : Hex 3 false) = true ∧
    Hex.valid_static 3 false (-3 - 1) (-3 - 1) = false ∧
    Hex.in_valid_static 3 false (-3 - 1) (-3 - 1) = true :=
  C5_nil_never_valid 3 false (by decide) (by decide)

/-- C6 (as stated, refuted): for `R = 1` the static `valid` accepts 7 pairs of
the enclosing 3 x 3 square under either convention, not `6R^2 + 6R + 1 = 13`;
moreover for `R = 32768` no pair at all is accepted, and for `R = 16384` the
center-based `valid` accepts fewer than `3R^2 + 3R + 1` pairs of its square. -/
theorem C6_accepted_count_counterexample :
    (Hex.accepted 1 true).card = 7 ∧
    (Hex.accepted 1 false).card = 7 ∧
    (Hex.accepted 1 true).card ≠ 6 * 1 ^ 2 + 6 * 1 + 1 ∧
    (Hex.accepted 1 false).card ≠ 6 * 1 ^ 2 + 6 * 1 + 1 ∧
    (Hex.accepted 32768 true).card = 0 ∧
    ((Hex.accepted 16384 false).card : Int) < 3 * 16384 ^ 2 + 3 * 16384 + 1 := by
  refine ⟨by decide, by decide, by decide, by decide, ?_,
    Hex.accepted_false_card_lt 16384 (by decide) (by decide)⟩
  rw [Finset.card_eq_zero]
  unfold Hex.accepted
  refine Finset.filter_eq_empty_iff.mpr (fun p _ => ?_)
  simp [Hex.valid_static_32768]

/-- C6 (amended): for `0 < R <= 32767` in the zero-based convention and
`0 < R <= 16383` in the center-based convention, `valid` accepts exactly
`3R^2 + 3R + 1` pairs of the enclosing `(2R+1) x (2R+1)` square of that
convention, every pair of 16-bit values it accepts lies inside that square,
and it rejects every other pair of the square. -/
theorem C6_accepted_count_amended (R : Int) (zero_base : Bool) (hR : 0 < R)
    (hR' : R ≤ if zero_base then 32767 else 16383) :
    ((Hex.accepted R zero_base).card : Int) = 3 * R ^ 2 + 3 * R + 1 ∧
    (∀ q r : Int, -32768 ≤ q → q ≤ 32767 → -32768 ≤ r → r ≤ 32767 →
      Hex.valid_static R zero_base q r = true → (q, r) ∈ Hex.square R zero_base) ∧
    (∀ p ∈ Hex.square R zero_base, p ∉ Hex.accepted R zero_base →
      Hex.valid_static R zero_base p.1 p.2 = false) := by
  refine ⟨Hex.accepted_card R zero_base hR hR', ?_, ?_⟩
  · intro q r hq1 hq2 hr1 hr2 hv
    cases zero_base
    · have hR2 : R ≤ 32767 := by
        have : R ≤ 16383 := by simpa using hR'
        omega
      rw [Hex.valid_static_false_iff R q r hR hR2 hq1 hq2 hr1 hr2] at hv
      simp only [abs_le] at hv
      simp only [Hex.square, Bool.false_eq_true, ↓reduceIte, Finset.mem_product,
        Finset.mem_Icc]
      omega
    · have hR2 : R ≤ 32767 := by simpa using hR'
      rw [Hex.valid_static_true_iff R q r hR hR2 hq1 hq2 hr1 hr2] at hv
      simp only [abs_le] at hv
      simp only [Hex.square, ↓reduceIte, Finset.mem_product, Finset.mem_Icc]
      omega
  · intro p hp hnot
    unfold Hex.accepted at hnot
    rw [Finset.mem_filter, not_and] at hnot
    simpa using hnot hp

theorem C6_accepted_count_amended_witness :
    ((Hex.accepted 3 false).card : Int) = 3 * 3 ^ 2 + 3 * 3 + 1 ∧
    (∀ q r : Int, -32768 ≤ q → q ≤ 32767 → -32768 ≤ r → r ≤ 32767 →
      Hex.valid_static 3 false q r = true → (q, r) ∈ Hex.square 3 false) ∧
    (∀ p ∈ Hex.square 3 false, p ∉ Hex.accepted 3 false →
      Hex.valid_static 3 false p.1 p.2 = false) :=
  C6_accepted_count_amended 3 false (by decide) (by decide)

/-- C7 (as stated, refuted): for `R = 16384` the pair `(16384, 0)` is accepted
by `Hex<R, true>::valid`, but `(16384 + R, 0 + R)` is rejected by
`Hex<R, false>::valid`, because `32768` is not a value of the 16-bit
`value_type`; and the center-based `valid` accepts fewer pairs of its square
than the zero-based one. -/
theorem C7_conventions_offset_counterexample :
    Hex.valid_static 16384 true 16384 0 = true ∧
    Hex.valid_static 16384 false (16384 + 16384) (0 + 16384) = false ∧
    (Hex.accepted 16384 false).card < (Hex.accepted 16384 true).card := by
  refine ⟨by decide, by decide, ?_⟩
  have h1 := Hex.accepted_false_card_lt 16384 (by decide) (by decide)
  have h2 := Hex.accepted_card 16384 true (by decide) (by decide)
  rw [← h2] at h1
  exact_mod_cast h1

/-- C7 (amended): for `0 < R <= 16383` and all integers `q`, `r`,
`Hex<R, true>::valid(q, r)` holds exactly when
`Hex<R, false>::valid(q + R, r + R)` holds, and the two conventions accept the
same number of pairs of their enclosing squares. -/
theorem C7_conventions_offset_amended (R : Int) (hR : 0 < R) (hR' : R ≤ 16383) (q r : Int) :
    (Hex.valid_static R true q r = true ↔
      Hex.valid_static R false (q + R) (r + R) = true) ∧
    (Hex.accepted R true).card = (Hex.accepted R false).card := by
  refine ⟨by rw [Hex.valid_static_shift R q r hR hR'], ?_⟩
  have h1 := Hex.accepted_card R true hR (by simp; omega)
  have h2 := Hex.accepted_card R false hR (by simpa using hR')
  rw [← h2] at h1
  exact_mod_cast h1

theorem C7_conventions_offset_amended_witness :
    (Hex.valid_static 3 true 2 (-3) = true ↔
      Hex.valid_static 3 false (2 + 3) (-3 + 3) = true) ∧
    (Hex.accepted 3 true).card = (Hex.accepted 3 false).card :=
  C7_conventions_offset_amended 3 (by decide) (by decide) 2 (-3)

/-- C8 (as stated, refuted): with `R = 1` the coordinate `(0, 0)` is valid
under `Hex<1, true>`, but `at(0, 0)` of the container with `zero_base = true`
subscripts `m_data` with `(0, 0)` whereas `at(0 + 1, 0 + 1)` of the container
with `zero_base = false` subscripts it with `(2, 2)`. -/
theorem C8_same_cell_counterexample :
    Hex.valid_static 1 true 0 0 = true ∧
    HexContainer.at_index 1 true 0 0 = (0, 0) ∧
    HexContainer.at_index 1 false (0 + 1) (0 + 1) = (2, 2) ∧
    HexContainer.at_index 1 true 0 0 ≠ HexContainer.at_index 1 false (0 + 1) (0 + 1) := by
  decide

/-- C8 (amended): for `R > 0` and every pair `(q, r)` of values of
`value_type` that `Hex<R, true>::valid` accepts, `at(q, r)` of the container
with `zero_base = false` and `at(q + R, r + R)` of the container with
`zero_base = true` subscript `m_data` with the same pair, `(r + R, q + R)`,
which lies in `[0, 2R]` on both axes. -/
theorem C8_same_cell_amended (R : Nat) (hR : 0 < R) (q r : Int)
    (hq : Hex.to_value (R : Int) q = q) (hr : Hex.to_value (R : Int) r = r)
    (hv : Hex.valid_static (R : Int) true q r = true) :
    HexContainer.at_index R false q r = HexContainer.at_index R true (q + R) (r + R) ∧
    HexContainer.at_index R false q r = (r + (R : Int), q + (R : Int)) ∧
    HexContainer.in_bounds R (HexContainer.at_index R false q r) := by
  have hb := Hex.valid_static_true_bound (R : Int) q r (by exact_mod_cast hR) hq hr hv
  have hmax : max (R : Int) r = (R : Int) := max_eq_left hb.2.2
  have h1 : HexContainer.at_index R false q r = (r + (R : Int), q + (R : Int)) := by
    simp [HexContainer.at_index, HexContainer.radius, hmax]
  refine ⟨?_, h1, ?_⟩
  · rw [h1]
    simp [HexContainer.at_index]
  · rw [h1]
    unfold HexContainer.in_bounds
    simp only
    omega

theorem C8_same_cell_amended_witness :
    HexContainer.at_index 3 false 2 (-3) =
      HexContainer.at_index 3 true (2 + ((3 : Nat) : Int)) (-3 + ((3 : Nat) : Int)) ∧
    HexContainer.at_index 3 false 2 (-3) = (-3 + ((3 : Nat) : Int), 2 + ((3 : Nat) : Int)) ∧
    HexContainer.in_bounds 3 (HexContainer.at_index 3 false 2 (-3)) :=
  C8_same_cell_amended 3 (by decide) 2 (-3) (by decide) (by decide) (by decide)

/-- C9: for `R > 0`, either convention, every container `g`, value `v` and
pair `(q, r)` whose subscripts lie in `[0, 2R]` on both axes, the assignment
`g.at(q, r) = v` succeeds and `at(q, r)` then reads `v`; the same holds for
`at(h)` and `g[h]` with a coordinate `h` holding `(q, r)`. -/
theorem C9_write_read_round_trip (T : Type) (R : Nat) (hR : 0 < R) (zero_base : Bool)
    (g : HexContainer T R zero_base) (v : T) (q r : Int)
    (hb : HexContainer.in_bounds R (HexContainer.at_index R zero_base q r)) :
    (∃ g', g.at_qr_assign q r v = some g' ∧ g'.at_qr q r = some v) ∧
    (∀ h : Hex (R : Int) true, h.q = q → h.r = r →
      (∃ g', g.at_hex_assign h v = some g' ∧ g'.at_hex h = some v) ∧
      (∃ g', g.subscript_assign h v = some g' ∧ g'.subscript h = some v)) := by
  have _h := hR
  have key := HexContainer.at_qr_round_trip g v q r hb
  refine ⟨key, ?_⟩
  intro h hq hr'
  subst hq
  subst hr'
  exact ⟨key, key⟩

theorem C9_write_read_round_trip_witness :
    (∃ g', (HexContainer.init Int 3 false).at_qr_assign 2 1 8 = some g' ∧
      g'.at_qr 2 1 = some 8) ∧
    (∀ h : Hex ((3 : Nat) : Int) true, h.q = 2 → h.r = 1 →
      (∃ g', (HexContainer.init Int 3 false).at_hex_assign h 8 = some g' ∧
        g'.at_hex h = some 8) ∧
      (∃ g', (HexContainer.init Int 3 false).subscript_assign h 8 = some g' ∧
        g'.subscript h = some 8)) :=
  C9_write_read_round_trip Int 3 (by decide) false (HexContainer.init Int 3 false) 8 2 1
    (by decide)

/-- C10: for `R > 0` and both conventions, every cell of the
`(2R+1) x (2R+1)` array of a freshly constructed container holds `T()`, which
is `0` for `int`; reading any subscript pair of `[0, 2R] x [0, 2R]` of it
yields that value. -/
theorem C10_fresh_container_default (R : Nat) (hR : 0 < R) (zero_base : Bool) :
    (∀ (T : Type) [Inhabited T] (row col : Fin (2 * R + 1)),
      (HexContainer.init T R zero_base).m_data row col = default) ∧
    (∀ row col : Fin (2 * R + 1), (HexContainer.init Int R zero_base).m_data row col = 0) ∧
    (∀ (T : Type) [Inhabited T] (i : Int × Int), HexContainer.in_bounds R i →
      (HexContainer.cell R i).map
        (fun c => (HexContainer.init T R zero_base).m_data c.1 c.2) = some default) ∧
    Fintype.card (Fin (2 * R + 1) × Fin (2 * R + 1)) = (2 * R + 1) * (2 * R + 1) := by
  have _h := hR
  refine ⟨fun _ _ _ _ => rfl, fun _ _ => rfl, ?_, by simp⟩
  intro T _ i hi
  obtain ⟨c, hc, -, -⟩ := HexContainer.cell_of_in_bounds R i hi
  simp [hc, HexContainer.init]

theorem C10_fresh_container_default_witness :
    (∀ (T : Type) [Inhabited T] (row col : Fin (2 * 3 + 1)),
      (HexContainer.init T 3 true).m_data row col = default) ∧
    (∀ row col : Fin (2 * 3 + 1), (HexContainer.init Int 3 true).m_data row col = 0) ∧
    (∀ (T : Type) [Inhabited T] (i : Int × Int), HexContainer.in_bounds 3 i →
      (HexContainer.cell 3 i).map
        (fun c => (HexContainer.init T 3 true).m_data c.1 c.2) = some default) ∧
    Fintype.card (Fin (2 * 3 + 1) × Fin (2 * 3 + 1)) = (2 * 3 + 1) * (2 * 3 + 1) :=
  C10_fresh_container_default 3 (by decide) true

/-- C11: for `R > 0` and every sequence of writes `(q, r, v)` with
`-R <= q <= R` and `-R <= r <= R`, applying them to a fresh container with
`zero_base = false` through `at(q, r)` and to a fresh container with
`zero_base = true` through `at(q + R, r + R)` succeeds on both and leaves
identical arrays, each pair of calls subscripting the cell `(r + R, q + R)`;
the two containers of `main` (`R = 3`) are an instance and print the same
grid. -/
theorem C11_conventions_same_layout (T : Type) [Inhabited T] (R : Nat) (hR : 0 < R)
    (ws : List (Int × Int × T))
    (hws : ∀ w ∈ ws, (-(R : Int) ≤ w.1 ∧ w.1 ≤ R) ∧ (-(R : Int) ≤ w.2.1 ∧ w.2.1 ≤ R)) :
    (∃ g1 g2, (HexContainer.init T R false).assign_all ws = some g1 ∧
      (HexContainer.init T R true).assign_all
        (ws.map (fun w => (w.1 + (R : Int), w.2.1 + (R : Int), w.2.2))) = some g2 ∧
      g1.m_data = g2.m_data ∧ g1.rows = g2.rows) ∧
    (∀ w ∈ ws,
      HexContainer.at_index R false w.1 w.2.1 = (w.2.1 + (R : Int), w.1 + (R : Int)) ∧
      HexContainer.at_index R true (w.1 + R) (w.2.1 + R)
        = (w.2.1 + (R : Int), w.1 + (R : Int))) ∧
    main_center_based.map HexContainer.rows = main_zero_based.map HexContainer.rows := by
  have _h := hR
  refine ⟨?_, ?_, by decide⟩
  · obtain ⟨g1, g2, h1, h2, h3⟩ := HexContainer.assign_all_shift ws
      (HexContainer.init T R false) (HexContainer.init T R true) rfl hws
    refine ⟨g1, g2, h1, h2, h3, ?_⟩
    unfold HexContainer.rows
    rw [h3]
  · intro w hw
    exact HexContainer.at_index_shift R w.1 w.2.1 (hws w hw).2.2

theorem C11_conventions_same_layout_witness :
    (∃ g1 g2, (HexContainer.init Int 3 false).assign_all [(0, -3, 1), (2, 1, 8)] = some g1 ∧
      (HexContainer.init Int 3 true).assign_all
        (([(0, -3, 1), (2, 1, 8)] : List (Int × Int × Int)).map
          (fun w => (w.1 + ((3 : Nat) : Int), w.2.1 + ((3 : Nat) : Int), w.2.2))) = some g2 ∧
      g1.m_data = g2.m_data ∧ g1.rows = g2.rows) ∧
    (∀ w ∈ ([(0, -3, 1), (2, 1, 8)] : List (Int × Int × Int)),
      HexContainer.at_index 3 false w.1 w.2.1
        = (w.2.1 + ((3 : Nat) : Int), w.1 + ((3 : Nat) : Int)) ∧
      HexContainer.at_index 3 true (w.1 + ((3 : Nat) : Int)) (w.2.1 + ((3 : Nat) : Int))
        = (w.2.1 + ((3 : Nat) : Int), w.1 + ((3 : Nat) : Int))) ∧
    main_center_based.map HexContainer.rows = main_zero_based.map HexContainer.rows :=
  C11_conventions_same_layout Int 3 (by decide) [(0, -3, 1), (2, 1, 8)] (by decide)

/-- C12: on a fresh container of `int` with `R = 3` and `zero_base = false`,
storing 1, 2, 3, 4, 5, 8, 16 through `at` at (0,-3), (1,-3), (-3,0), (0,0),
(3,0), (2,1), (0,3) succeeds and yields the 7 x 7 array whose rows, in the order
in which `operator <<` writes them, are those of the comment at the end of
`main.cpp`; every other cell is 0. -/
theorem C12_center_based_reference_grid :
    main_center_based.map HexContainer.rows =
      some [[0, 0, 0, 1, 2, 0, 0],
            [0, 0, 0, 0, 0, 0, 0],
            [0, 0, 0, 0, 0, 0, 0],
            [3, 0, 0, 4, 0, 0, 5],
            [0, 0, 0, 0, 0, 8, 0],
            [0, 0, 0, 0, 0, 0, 0],
            [0, 0, 0, 16, 0, 0, 0]] ∧
    main_center_based.map HexContainer.rows = some expected_output := by
  decide

/-- C13 (evaluation of the const overloads): on every container, for every
pair `(q, r)`, every coordinate `h` and every bound `fuel` on the depth of the
nested calls, the const `at(q, r)`, the const `at(h)` and the const
`operator[](h)` have not returned, while the mutable `at(0, 0)` of a fresh
container with `zero_base = true` reads the cell `m_data[0][0]`. -/
theorem C13_const_at_never_returns (T : Type) (R : Nat) (zero_base : Bool)
    (g : HexContainer T R zero_base) (q r : Int) (h : Hex (R : Int) true) (fuel : Nat) :
    g.at_qr_const fuel q r = none ∧
    g.at_hex_const fuel h = none ∧
    g.subscript_const fuel h = none ∧
    (HexContainer.init Int 3 true).at_qr 0 0 = some 0 ∧
    (HexContainer.init Int 3 true).at_qr_const fuel 0 0 = none :=
  ⟨HexContainer.at_qr_const_none fuel g q r,
    HexContainer.at_qr_const_none fuel g h.q h.r,
    HexContainer.at_qr_const_none fuel g h.q h.r,
    by decide,
    HexContainer.at_qr_const_none fuel _ 0 0⟩

/-- C14: for `0 < R <= 32767`, either convention and every coordinate `h`,
after `h.nil()` the coordinate holds `q = r = -R-1` and `operator ==` with a
default-constructed coordinate returns true; a second `nil()` leaves it
unchanged. -/
theorem C14_nil_idempotent (R : Int) (zero_base : Bool) (hR : 0 < R) (hR' : R ≤ 32767)
    (h : Hex R zero_base) :
    h.nil.q = -R - 1 ∧ h.nil.r = -R - 1 ∧
    h.nil.eq ({} : Hex R zero_base) = true ∧
    ({} : Hex R zero_base).eq h.nil = true ∧
    h.nil.nil = h.nil := by
  have hn := Hex.nil_value R hR hR'
  refine ⟨?_, ?_, ?_, ?_, rfl⟩
  · simp [Hex.nil, hn]
  · simp [Hex.nil, hn]
  · simp [Hex.nil, Hex.eq]
  · simp [Hex.nil, Hex.eq]

theorem C14_nil_idempotent_witness :
    (({ q := 2, r := 1 } : Hex 3 true).nil).q = -3 - 1 ∧
    (({ q := 2, r := 1 } : Hex 3 true).nil).r = -3 - 1 ∧
    (({ q := 2, r := 1 } : Hex 3 true).nil).eq ({} : Hex 3 true) = true ∧
    ({} : Hex 3 true).eq (({ q := 2, r := 1 } : Hex 3 true).nil) = true ∧
    (({ q := 2, r := 1 } : Hex 3 true).nil).nil = ({ q := 2, r := 1 } : Hex 3 true).nil :=
  C14_nil_idempotent 3 true (by decide) (by decide) { q := 2, r := 1 }

/-- C15: for all coordinates `a`, `b` of the same type, `a == b` returns true
exactly when `a.q = b.q` and `a.r = b.r`, and `a != b` returns the negation of
`a == b`. -/
theorem C15_comparison_structural (R : Int) (zero_base : Bool) (a b : Hex R zero_base) :
    (a.eq b = true ↔ (a.q = b.q ∧ a.r = b.r)) ∧
    (a.eq b = true ↔ a = b) ∧
    a.ne b = !(a.eq b) := by
  refine ⟨by simp [Hex.eq], ?_, ?_⟩
  · cases a
    cases b
    simp [Hex.eq]
  · simp only [Hex.ne, Hex.eq]
    by_cases h1 : a.q = b.q <;> by_cases h2 : a.r = b.r <;> simp [h1, h2]

/-- C16: for `R > 0` and a signed `size_type` of `bits` bits in which
`(2R+1)^2` is representable, `radius()` returns `R`, `width()` and `height()`
return `2R+1`, `size()` returns `width() * height() = (2R+1)^2`, the number of
cells of `m_data`; every value computed on the way is representable, hence
unchanged by the conversion to `size_type`. -/
theorem C16_dimension_accessors (R : Nat) (hR : 0 < R) (bits : Nat)
    (hfit : representable bits ((2 * (R : Int) + 1) ^ 2)) :
    HexContainer.radius R = (R : Int) ∧
    HexContainer.width R = 2 * (R : Int) + 1 ∧
    HexContainer.height R = 2 * (R : Int) + 1 ∧
    HexContainer.size R = HexContainer.width R * HexContainer.height R ∧
    HexContainer.size R = (2 * (R : Int) + 1) ^ 2 ∧
    HexContainer.size R = (Fintype.card (Fin (2 * R + 1) × Fin (2 * R + 1)) : Int) ∧
    to_signed bits (HexContainer.radius R) = HexContainer.radius R ∧
    to_signed bits (2 * HexContainer.radius R) = 2 * HexContainer.radius R ∧
    to_signed bits (HexContainer.width R) = HexContainer.width R ∧
    to_signed bits (HexContainer.height R) = HexContainer.height R ∧
    to_signed bits (HexContainer.size R) = HexContainer.size R := by
  obtain ⟨f1, f2⟩ := hfit
  have hR0 : (1 : Int) ≤ (R : Int) := by exact_mod_cast hR
  have hsq : (2 * (R : Int) + 1) ^ 2 = (2 * (R : Int) + 1) * (2 * (R : Int) + 1) := by ring
  have hge : 2 * (R : Int) + 1 ≤ (2 * (R : Int) + 1) ^ 2 := by nlinarith
  have hb : 1 ≤ bits := by
    rcases Nat.eq_zero_or_pos bits with h0 | h0
    · subst h0
      simp at f2
      omega
    · exact h0
  have hpos : (0 : Int) < 2 ^ (bits - 1) := by positivity
  have conv : ∀ x : Int, 0 ≤ x → x ≤ (2 * (R : Int) + 1) ^ 2 → to_signed bits x = x :=
    fun x h0 h1 => to_signed_of_representable bits hb x ⟨by omega, by omega⟩
  refine ⟨rfl, rfl, rfl, rfl, ?_, ?_, ?_, ?_, ?_, ?_, ?_⟩
  · simp only [HexContainer.size, HexContainer.width, HexContainer.height,
      HexContainer.radius]
    ring
  · simp only [HexContainer.size, HexContainer.width, HexContainer.height,
      HexContainer.radius, Fintype.card_prod, Fintype.card_fin]
    push_cast
    ring
  · exact conv _ (by simp only [HexContainer.radius]; omega)
      (by simp only [HexContainer.radius]; omega)
  · exact conv _ (by simp only [HexContainer.radius]; omega)
      (by simp only [HexContainer.radius]; omega)
  · exact conv _ (by simp only [HexContainer.width, HexContainer.radius]; omega)
      (by simp only [HexContainer.width, HexContainer.radius]; omega)
  · exact conv _ (by simp only [HexContainer.height, HexContainer.radius]; omega)
      (by simp only [HexContainer.height, HexContainer.radius]; omega)
  · have hs : HexContainer.size R = (2 * (R : Int) + 1) ^ 2 := by
      simp only [HexContainer.size, HexContainer.width, HexContainer.height,
        HexContainer.radius]
      ring
    rw [hs]
    exact conv _ (by positivity) le_rfl

theorem C16_dimension_accessors_witness :
    HexContainer.radius 3 = ((3 : Nat) : Int) ∧
    HexContainer.width 3 = 2 * ((3 : Nat) : Int) + 1 ∧
    HexContainer.height 3 = 2 * ((3 : Nat) : Int) + 1 ∧
    HexContainer.size 3 = HexContainer.width 3 * HexContainer.height 3 ∧
    HexContainer.size 3 = (2 * ((3 : Nat) : Int) + 1) ^ 2 ∧
    HexContainer.size 3 = (Fintype.card (Fin (2 * 3 + 1) × Fin (2 * 3 + 1)) : Int) ∧
    to_signed 32 (HexContainer.radius 3) = HexContainer.radius 3 ∧
    to_signed 32 (2 * HexContainer.radius 3) = 2 * HexContainer.radius 3 ∧
    to_signed 32 (HexContainer.width 3) = HexContainer.width 3 ∧
    to_signed 32 (HexContainer.height 3) = HexContainer.height 3 ∧
    to_signed 32 (HexContainer.size 3) = HexContainer.size 3 :=
  C16_dimension_accessors 3 (by decide) 32 (by unfold representable; norm_num)

/-- C17 (as stated, refuted): for `R = 2` the size `(2R+1)^2 = 25` is at most
255, yet `uidx<2>` is 16 bits wide; and for `R = 2^62` the size is far above
255, yet the 64-bit computation of `data_size` wraps around to 35 and
`uidx<R>` is 8 bits wide. -/
theorem C17_uidx_counterexample :
    (2 * 2 + 1) ^ 2 ≤ 255 ∧ uidx 2 = 16 ∧
    ¬ ((2 * 2 ^ 62 + 1) ^ 2 ≤ 255) ∧ uidx (2 ^ 62) = 8 := by
  decide

/-- C17 (amended): for `R > 0` for which `(4R+5)(8R+7)` does not wrap around
in the 64-bit `std::size_t`, `uidx<R>` is 8 bits wide if `(4R+5)(8R+7)`, the
value of `data_size<( 2 * R + 1 )>`, is less than 255, which is the case for
`R = 1` only, and 16 bits wide otherwise. -/
theorem C17_uidx_amended (R : Nat) (hR : 0 < R)
    (hwrap : (4 * R + 5) * (8 * R + 7) < 2 ^ 64) :
    (uidx R = if (4 * R + 5) * (8 * R + 7) < 255 then 8 else 16) ∧
    ((4 * R + 5) * (8 * R + 7) < 255 ↔ R = 1) ∧
    (uidx R = 8 ↔ R = 1) ∧
    (R ≠ 1 → uidx R = 16) := by
  have hu := uidx_eq R hwrap
  have hiff : (4 * R + 5) * (8 * R + 7) < 255 ↔ R = 1 := by
    constructor
    · intro h
      by_contra hne
      have h2 : 2 ≤ R := by omega
      have : 13 * 23 ≤ (4 * R + 5) * (8 * R + 7) := Nat.mul_le_mul (by omega) (by omega)
      omega
    · rintro rfl
      norm_num
  refine ⟨hu, hiff, ?_, ?_⟩
  · rw [hu, ← hiff]
    split_ifs with h
    · simp [h]
    · simp [h]
  · intro hne
    rw [hu, if_neg (fun h => hne (hiff.mp h))]

theorem C17_uidx_amended_witness :
    (uidx 3 = if (4 * 3 + 5) * (8 * 3 + 7) < 255 then 8 else 16) ∧
    ((4 * 3 + 5) * (8 * 3 + 7) < 255 ↔ 3 = 1) ∧
    (uidx 3 = 8 ↔ 3 = 1) ∧
    (3 ≠ 1 → uidx 3 = 16) :=
  C17_uidx_amended 3 (by decide) (by decide)

/-- C18 (as stated, refuted): for `R = 32768` the radius does not fit in the
16-bit `value_type` and `valid` accepts no pair at all under either
convention; for `R = 16384` the center-based `valid` accepts fewer than
`3R^2 + 3R + 1` pairs. -/
theorem C18_cell_count_counterexample :
    (Hex.accepted_values 32768 true).card = 0 ∧
    ((Hex.accepted_values 32768 true).card : Int) ≠ 3 * 32768 ^ 2 + 3 * 32768 + 1 ∧
    (Hex.accepted_values 32768 false).card = 0 ∧
    ((Hex.accepted_values 16384 false).card : Int) < 3 * 16384 ^ 2 + 3 * 16384 + 1 := by
  have h0 : ∀ zb : Bool, (Hex.accepted_values 32768 zb).card = 0 := by
    intro zb
    rw [Finset.card_eq_zero]
    unfold Hex.accepted_values
    refine Finset.filter_eq_empty_iff.mpr (fun p _ => ?_)
    simp [Hex.valid_static_32768]
  refine ⟨h0 true, ?_, h0 false, ?_⟩
  · rw [h0 true]
    norm_num
  · rw [Hex.accepted_values_eq 16384 false (by decide) (by decide)]
    exact Hex.accepted_false_card_lt 16384 (by decide) (by decide)

/-- C18 (amended): for `0 < R <= 32767` the number of pairs of values of
`value_type` accepted by `Hex<R, true>::valid` is exactly `3R^2 + 3R + 1`, and
for `R <= 16383` the same number is accepted by `Hex<R, false>::valid`; for
`R = 1` this is 7 of the 9 pairs of the enclosing 3 x 3 square, the 2 rejected
pairs being the opposite corners `(-1,-1)` and `(1,1)` in zero-based labels. -/
theorem C18_cell_count_amended (R : Int) (hR : 0 < R) (hR' : R ≤ 32767) :
    ((Hex.accepted_values R true).card : Int) = 3 * R ^ 2 + 3 * R + 1 ∧
    (R ≤ 16383 → ((Hex.accepted_values R false).card : Int) = 3 * R ^ 2 + 3 * R + 1) ∧
    Hex.accepted_values 1 true = Hex.accepted 1 true ∧
    (Hex.accepted 1 true).card = 7 ∧
    (Hex.square 1 true).card = 9 ∧
    Hex.square 1 true \ Hex.accepted 1 true = {(-1, -1), (1, 1)} := by
  refine ⟨?_, ?_, Hex.accepted_values_eq 1 true (by decide) (by decide), by decide,
    by decide, by decide⟩
  · rw [Hex.accepted_values_eq R true hR hR']
    exact Hex.accepted_card R true hR (by simpa using hR')
  · intro h
    rw [Hex.accepted_values_eq R false hR hR']
    exact Hex.accepted_card R false hR (by simpa using h)

theorem C18_cell_count_amended_witness :
    ((Hex.accepted_values 3 true).card : Int) = 3 * 3 ^ 2 + 3 * 3 + 1 ∧
    ((3 : Int) ≤ 16383 → ((Hex.accepted_values 3 false).card : Int) = 3 * 3 ^ 2 + 3 * 3 + 1) ∧
    Hex.accepted_values 1 true = Hex.accepted 1 true ∧
    (Hex.accepted 1 true).card = 7 ∧
    (Hex.square 1 true).card = 9 ∧
    Hex.square 1 true \ Hex.accepted 1 true = {(-1, -1), (1, 1)} :=
  C18_cell_count_amended 3 (by decide) (by decide)

/-- C19: for `R > 0` and either convention, the index map of `at` is
injective on integer pairs; storing `v` through an in-bounds `at(q1, r1)`
succeeds, leaves the value read through `at(q2, r2)` unchanged for every
`(q2, r2)` different from `(q1, r1)`, and leaves every cell of the array other
than the designated one unchanged. -/
theorem C19_writes_do_not_leak (T : Type) (R : Nat) (hR : 0 < R) (zero_base : Bool)
    (g : HexContainer T R zero_base) (q1 r1 : Int) (v : T)
    (hb : HexContainer.in_bounds R (HexContainer.at_index R zero_base q1 r1)) :
    (∀ q2 r2 q3 r3 : Int,
      HexContainer.at_index R zero_base q2 r2 = HexContainer.at_index R zero_base q3 r3 →
        q2 = q3 ∧ r2 = r3) ∧
    (∃ g', g.at_qr_assign q1 r1 v = some g' ∧
      (∀ q2 r2 : Int, (q2, r2) ≠ (q1, r1) → g'.at_qr q2 r2 = g.at_qr q2 r2) ∧
      (∀ row col : Fin (2 * R + 1),
        HexContainer.cell R (HexContainer.at_index R zero_base q1 r1) ≠ some (row, col) →
          g'.m_data row col = g.m_data row col)) := by
  have _h := hR
  refine ⟨HexContainer.at_index_inj R zero_base, ?_⟩
  obtain ⟨g', hg', -⟩ := HexContainer.at_qr_round_trip g v q1 r1 hb
  obtain ⟨c, hc, hm⟩ := HexContainer.at_qr_assign_m_data g g' q1 r1 v hg'
  refine ⟨g', hg', ?_, ?_⟩
  · intro q2 r2 hne
    unfold HexContainer.at_qr
    cases hc2 : HexContainer.cell R (HexContainer.at_index R zero_base q2 r2) with
    | none => rfl
    | some c2 =>
      have hcc : ¬ (c2.1 = c.1 ∧ c2.2 = c.2) := by
        rintro ⟨e1, e2⟩
        obtain ⟨a1, a2⟩ := HexContainer.cell_some_val R _ c hc
        obtain ⟨b1, b2⟩ := HexContainer.cell_some_val R _ c2 hc2
        have hidx : HexContainer.at_index R zero_base q2 r2
            = HexContainer.at_index R zero_base q1 r1 := by
          apply Prod.ext
          · rw [← b1, ← a1, e1]
          · rw [← b2, ← a2, e2]
        obtain ⟨e3, e4⟩ := HexContainer.at_index_inj R zero_base q2 r2 q1 r1 hidx
        exact hne (by rw [e3, e4])
      simp only [Option.map_some', hm, if_neg hcc]
  · intro row col hne
    have hcc : ¬ (row = c.1 ∧ col = c.2) := by
      rintro ⟨e1, e2⟩
      apply hne
      rw [hc, e1, e2]
    rw [hm]
    simp only [if_neg hcc]

theorem C19_writes_do_not_leak_witness :
    (∀ q2 r2 q3 r3 : Int,
      HexContainer.at_index 3 false q2 r2 = HexContainer.at_index 3 false q3 r3 →
        q2 = q3 ∧ r2 = r3) ∧
    (∃ g', (HexContainer.init Int 3 false).at_qr_assign 2 1 8 = some g' ∧
      (∀ q2 r2 : Int, (q2, r2) ≠ (2, 1) →
        g'.at_qr q2 r2 = (HexContainer.init Int 3 false).at_qr q2 r2) ∧
      (∀ row col : Fin (2 * 3 + 1),
        HexContainer.cell 3 (HexContainer.at_index 3 false 2 1) ≠ some (row, col) →
          g'.m_data row col = (HexContainer.init Int 3 false).m_data row col)) :=
  C19_writes_do_not_leak Int 3 (by decide) false (HexContainer.init Int 3 false) 2 1 8
    (by decide)

/-- C20: for `R > 0` and integers `q`, `r`, `at(q, r)` of the container with
`zero_base = false` subscripts inside `[0, 2R]` on both axes exactly when
`-R <= q <= R` and `-R <= r <= R` (and then `max(R, r) = R`), and that of the
container with `zero_base = true` exactly when `0 <= q <= 2R` and
`0 <= r <= 2R`; hence a coordinate `(q, r)` accepted by `Hex<R, true>::valid` is
in bounds for the container with `zero_base = false`, in particular through
`at(const Hex<R>&)`, and one accepted by `Hex<R, false>::valid` is in bounds for
the container with `zero_base = true`. -/
theorem C20_safe_coordinates (R : Nat) (hR : 0 < R) (q r : Int) :
    (HexContainer.in_bounds R (HexContainer.at_index R false q r) ↔
      ((-(R : Int) ≤ q ∧ q ≤ R) ∧ (-(R : Int) ≤ r ∧ r ≤ R))) ∧
    (HexContainer.in_bounds R (HexContainer.at_index R false q r) → max (R : Int) r = R) ∧
    (HexContainer.in_bounds R (HexContainer.at_index R true q r) ↔
      ((0 ≤ q ∧ q ≤ 2 * (R : Int)) ∧ (0 ≤ r ∧ r ≤ 2 * (R : Int)))) ∧
    (Hex.valid ({ q := q, r := r } : Hex (R : Int) true) = true →
      HexContainer.in_bounds R (HexContainer.at_index R false q r)) ∧
    (Hex.to_value (R : Int) q = q → Hex.to_value (R : Int) r = r →
      Hex.valid_static (R : Int) true q r = true →
      HexContainer.in_bounds R (HexContainer.at_index R false q r)) ∧
    (∀ (T : Type) (g : HexContainer T R false) (h : Hex (R : Int) true),
      h.q = q → h.r = r → h.valid = true → ∃ v, g.at_hex h = some v) ∧
    (Hex.valid ({ q := q, r := r } : Hex (R : Int) false) = true →
      HexContainer.in_bounds R (HexContainer.at_index R true q r)) ∧
    (Hex.to_value (R : Int) q = q → Hex.to_value (R : Int) r = r →
      Hex.valid_static (R : Int) false q r = true →
      HexContainer.in_bounds R (HexContainer.at_index R true q r)) := by
  have hR0 : (0 : Int) < (R : Int) := by exact_mod_cast hR
  have hf := HexContainer.in_bounds_false_iff R q r
  have ht := HexContainer.in_bounds_true_iff R q r
  refine ⟨hf, ?_, ht, ?_, ?_, ?_, ?_, ?_⟩
  · intro hb
    exact max_eq_left (hf.mp hb).2.2
  · intro hv
    exact hf.mpr (Hex.valid_true_bound (R : Int) q r hR0 hv)
  · intro hq hr hv
    exact hf.mpr (Hex.valid_static_true_bound (R : Int) q r hR0 hq hr hv)
  · intro T g h hq hr hv
    subst hq
    subst hr
    have hb := hf.mpr (Hex.valid_true_bound (R : Int) h.q h.r hR0 hv)
    obtain ⟨c, hc, -, -⟩ := HexContainer.cell_of_in_bounds R _ hb
    exact ⟨g.m_data c.1 c.2, by simp [HexContainer.at_hex, HexContainer.at_qr, hc]⟩
  · intro hv
    exact ht.mpr (Hex.valid_false_bound (R : Int) q r hR0 hv)
  · intro hq hr hv
    exact ht.mpr (Hex.valid_static_false_bound (R : Int) q r hR0 hq hr hv)

theorem C20_safe_coordinates_witness :
    (HexContainer.in_bounds 3 (HexContainer.at_index 3 false 2 (-3)) ↔
      ((-((3 : Nat) : Int) ≤ 2 ∧ (2 : Int) ≤ (3 : Nat)) ∧
        (-((3 : Nat) : Int) ≤ -3 ∧ (-3 : Int) ≤ (3 : Nat)))) ∧
    (HexContainer.in_bounds 3 (HexContainer.at_index 3 false 2 (-3)) →
      max (((3 : Nat) : Int)) (-3) = (3 : Nat)) ∧
    (HexContainer.in_bounds 3 (HexContainer.at_index 3 true 2 (-3)) ↔
      ((0 ≤ (2 : Int) ∧ (2 : Int) ≤ 2 * ((3 : Nat) : Int)) ∧
        (0 ≤ (-3 : Int) ∧ (-3 : Int) ≤ 2 * ((3 : Nat) : Int)))) ∧
    (Hex.valid ({ q := 2, r := -3 } : Hex ((3 : Nat) : Int) true) = true →
      HexContainer.in_bounds 3 (HexContainer.at_index 3 false 2 (-3))) ∧
    (Hex.to_value ((3 : Nat) : Int) 2 = 2 → Hex.to_value ((3 : Nat) : Int) (-3) = -3 →
      Hex.valid_static ((3 : Nat) : Int) true 2 (-3) = true →
      HexContainer.in_bounds 3 (HexContainer.at_index 3 false 2 (-3))) ∧
    (∀ (T : Type) (g : HexContainer T 3 false) (h : Hex ((3 : Nat) : Int) true),
      h.q = 2 → h.r = -3 → h.valid = true → ∃ v, g.at_hex h = some v) ∧
    (Hex.valid ({ q := 2, r := -3 } : Hex ((3 : Nat) : Int) false) = true →
      HexContainer.in_bounds 3 (HexContainer.at_index 3 true 2 (-3))) ∧
    (Hex.to_value ((3 : Nat) : Int) 2 = 2 → Hex.to_value ((3 : Nat) : Int) (-3) = -3 →
      Hex.valid_static ((3 : Nat) : Int) false 2 (-3) = true →
      HexContainer.in_bounds 3 (HexContainer.at_index 3 true 2 (-3))) :=
  C20_safe_coordinates 3 (by decide) 2 (-3)

example : Hex.valid_static 1 true (-1) 1 = true := by decide
example : Hex.valid_static 1 true 1 1 = false := by decide
example : Hex.valid_static 1 false 1 1 = true := by decide
example : Hex.valid_static 32767 true (-32768) 1 = false := by decide
example : ({} : Hex 3 true).valid = false := by decide
example : sidx 1 = 16 := by decide
example : uidx 1 = 8 := by decide
example : (Hex.accepted 1 true).card = 7 := by decide
example : (Hex.accepted 1 false).card = 7 := by decide
example : HexContainer.at_index 3 false 2 1 = (4, 5) := by decide
example : ((HexContainer.init Int 3 false).at_qr_assign 2 1 8).bind (fun g => g.at_qr 2 1) = some 8 := by
  decide
example : main_center_based.map HexContainer.rows = some expected_output := by decide
example : main_zero_based.map HexContainer.rows = some expected_output := by decide
example : (HexContainer.init Int 3 true).at_qr_const 100 0 0 = none := by decide
example : uidx 2 = 16 := by decide
example : uidx (2 ^ 62) = 8 := by decide
example : Hex.valid_static 16384 true 16384 0 = true := by decide
example : Hex.valid_static 16384 false (16384 + 16384) (0 + 16384) = false := by decide

end Amit
